import Mathlib

/-!
# Verification of the box-arcade real-time simulation core

A shallow embedding, in Lean 4, of the simulation layer of the
box-arcade repository: the `Tag` platformer (physics, jump buffering,
moving platforms, tag transfer with cooldown), the `Survival` games
(difficulty ramp and hazard spawning), `BrickBreaker` and the
`TrailLock` arena shrink, together with the configurable input layer
(`core/input_handler.py`) and the `Player` entity.

Modelling conventions:
* `pygame.Rect` is a quadruple of integers `(x, y, w, h)`; pygame's
  `colliderect` uses strict inequalities (touching edges do not
  collide), `contains` is inclusive, `inflate` keeps the centre.
* Python floats are modelled as exact rationals (`ℚ`); `int(x)`
  truncates toward zero (`pyTrunc`), Python `//` is floor division
  (`pyFloorDiv`).
* `random.choice` / `random.randint` / `random.uniform` results are
  passed in as explicit parameters (with their admissible ranges as
  hypotheses where a claim needs them), so every run of the embedded
  code corresponds to one concrete random seed.
* Python dictionaries are association lists looked up with `dictGet`;
  mutation of an object held in a list is modelled by functional
  update of the list entry at the same index (`setAt`), so `is`
  identity of roster members corresponds to positional identity.
-/

set_option maxHeartbeats 1000000

/-- Python `int(x)` applied to a float: truncation toward zero. -/
def pyTrunc (q : ℚ) : ℤ := if 0 ≤ q then ⌊q⌋ else -⌊-q⌋

/-- Python `a // b`: floor division. -/
def pyFloorDiv (a b : ℤ) : ℤ := Int.fdiv a b

/-- Python `dict.get(k, d)` over an association list. -/
def dictGet {α β : Type} [BEq α] (l : List (α × β)) (k : α) (d : β) : β :=
  (l.lookup k).getD d

/-- Python `d[k] = v` on an association list whose key is present
(keeps the first occurrence's position). -/
def dictSet {α β : Type} [BEq α] : List (α × β) → α → β → List (α × β)
  | [], _, _ => []
  | (a, b) :: l, k, v => if a == k then (a, v) :: l else (a, b) :: dictSet l k v

/-- First index of the list satisfying the predicate (Python
`next(i for ...)` / linear scan with `break`). -/
def firstIdx {α : Type} (p : α → Bool) : List α → Option ℕ
  | [] => none
  | a :: l => if p a then some 0 else (firstIdx p l).map (· + 1)

/-- Replace the element at one index by applying `f` (in-place object
mutation of a list member). Out-of-range indices leave the list
unchanged. -/
def setAt {α : Type} : List α → ℕ → (α → α) → List α
  | [], _, _ => []
  | a :: l, 0, f => f a :: l
  | a :: l, n + 1, f => a :: setAt l n f

/-- Python indexing `l[k]` on a list of booleans for an integer index
(negative indices count from the end), returning `false` when out of
range; every use in the source is guarded by a range check. -/
def pyListGet (l : List Bool) (k : ℤ) : Bool :=
  if 0 ≤ k then l.getD k.toNat false else l.getD (l.length - (-k).toNat) false

/-- `pygame.Rect`: axis-aligned integer rectangle. -/
structure Rect where
  x : ℤ
  y : ℤ
  w : ℤ
  h : ℤ
deriving Repr, DecidableEq

namespace Rect

def left (r : Rect) : ℤ := r.x

def right (r : Rect) : ℤ := r.x + r.w

def top (r : Rect) : ℤ := r.y

def bottom (r : Rect) : ℤ := r.y + r.h

/-- `rect.centerx` (pygame computes `x + w / 2` in C; widths are
non-negative in every use, so floor division is exact). -/
def centerx (r : Rect) : ℤ := r.x + pyFloorDiv r.w 2

def setLeft (r : Rect) (v : ℤ) : Rect := { r with x := v }

def setRight (r : Rect) (v : ℤ) : Rect := { r with x := v - r.w }

def setTop (r : Rect) (v : ℤ) : Rect := { r with y := v }

def setBottom (r : Rect) (v : ℤ) : Rect := { r with y := v - r.h }

def addX (r : Rect) (d : ℤ) : Rect := { r with x := r.x + d }

def addY (r : Rect) (d : ℤ) : Rect := { r with y := r.y + d }

/-- `a.colliderect(b)`: strict overlap (touching edges do not count). -/
def colliderect (a b : Rect) : Bool :=
  decide (a.x < b.x + b.w) && decide (a.x + a.w > b.x) &&
    decide (a.y < b.y + b.h) && decide (a.y + a.h > b.y)

/-- `a.contains(b)`: `b` completely inside `a` (pygame's C test). -/
def contains (a b : Rect) : Bool :=
  decide (b.x ≥ a.x) && decide (b.y ≥ a.y) &&
    decide (b.x + b.w ≤ a.x + a.w) && decide (b.y + b.h ≤ a.y + a.h) &&
    decide (b.x + b.w > a.x) && decide (b.y + b.h > a.y)

/-- `r.inflate(dx, dy)`: grow around the centre (the source only uses
even arguments, where C and floor division agree). -/
def inflate (r : Rect) (dx dy : ℤ) : Rect :=
  { x := r.x - pyFloorDiv dx 2, y := r.y - pyFloorDiv dy 2, w := r.w + dx, h := r.h + dy }

end Rect

/-- The four movement actions of `core/input_handler.py`. -/
def actUp : String := "up"

def actDown : String := "down"

def actLeft : String := "left"

def actRight : String := "right"

/-- `InputHandler`: per-player action-to-keycode mappings plus the set
of keycodes currently held (`_pressed_keys`). A failed key-name
conversion stores the sentinel `-1`, identical to an absent binding. -/
structure InputHandler where
  mappings : List (ℤ × List (String × ℤ))
  pressed_keys : List ℤ
deriving Repr

namespace InputHandler

/-- `InputHandler.is_action_pressed(player_id, action, pressed)`. -/
def is_action_pressed (ih : InputHandler) (player_id : ℤ) (action : String)
    (pressed : Option (List Bool)) : Bool :=
  let mapping := dictGet ih.mappings player_id []
  let key := dictGet mapping action (-1)
  match pressed with
  | none => key != -1 && ih.pressed_keys.contains key
  | some pr => key != -1 && decide (key < (pr.length : ℤ)) && pyListGet pr key

/-- `InputHandler.get_axes(player_id, pressed)`: discrete axes in
`{-1, 0, 1}` for x and y. -/
def get_axes (ih : InputHandler) (player_id : ℤ) (pressed : Option (List Bool)) :
    ℤ × ℤ :=
  let mapping := dictGet ih.mappings player_id []
  let up := dictGet mapping actUp (-1)
  let down := dictGet mapping actDown (-1)
  let left := dictGet mapping actLeft (-1)
  let right := dictGet mapping actRight (-1)
  match pressed with
  | none =>
    let dx : ℤ := 0
    let dy : ℤ := 0
    let dx := if left != -1 && ih.pressed_keys.contains left then dx - 1 else dx
    let dx := if right != -1 && ih.pressed_keys.contains right then dx + 1 else dx
    let dy := if up != -1 && ih.pressed_keys.contains up then dy - 1 else dy
    let dy := if down != -1 && ih.pressed_keys.contains down then dy + 1 else dy
    (dx, dy)
  | some pr =>
    let dx : ℤ := 0
    let dy : ℤ := 0
    let dx := if left != -1 && decide (left < (pr.length : ℤ)) && pyListGet pr left then dx - 1 else dx
    let dx := if right != -1 && decide (right < (pr.length : ℤ)) && pyListGet pr right then dx + 1 else dx
    let dy := if up != -1 && decide (up < (pr.length : ℤ)) && pyListGet pr up then dy - 1 else dy
    let dy := if down != -1 && decide (down < (pr.length : ℤ)) && pyListGet pr down then dy + 1 else dy
    (dx, dy)

/-- `1 / sqrt(2)` as written in the source (`0.70710678`). -/
def diagFactor : ℚ := 70710678 / 100000000

/-- `InputHandler.get_direction(player_id, pressed)`: like `get_axes`
but with diagonal movement normalised. -/
def get_direction (ih : InputHandler) (player_id : ℤ) (pressed : Option (List Bool)) :
    ℚ × ℚ :=
  let mapping := dictGet ih.mappings player_id []
  let up := dictGet mapping actUp (-1)
  let down := dictGet mapping actDown (-1)
  let left := dictGet mapping actLeft (-1)
  let right := dictGet mapping actRight (-1)
  let a :=
    match pressed with
    | none =>
      let dx : ℤ := 0
      let dy : ℤ := 0
      let dx := if left != -1 && ih.pressed_keys.contains left then dx - 1 else dx
      let dx := if right != -1 && ih.pressed_keys.contains right then dx + 1 else dx
      let dy := if up != -1 && ih.pressed_keys.contains up then dy - 1 else dy
      let dy := if down != -1 && ih.pressed_keys.contains down then dy + 1 else dy
      (dx, dy)
    | some pr =>
      let dx : ℤ := 0
      let dy : ℤ := 0
      let dx := if left != -1 && decide (left < (pr.length : ℤ)) && pyListGet pr left then dx - 1 else dx
      let dx := if right != -1 && decide (right < (pr.length : ℤ)) && pyListGet pr right then dx + 1 else dx
      let dy := if up != -1 && decide (up < (pr.length : ℤ)) && pyListGet pr up then dy - 1 else dy
      let dy := if down != -1 && decide (down < (pr.length : ℤ)) && pyListGet pr down then dy + 1 else dy
      (dx, dy)
  if a.1 ≠ 0 ∧ a.2 ≠ 0 then ((a.1 : ℚ) * diagFactor, (a.2 : ℚ) * diagFactor)
  else ((a.1 : ℚ), (a.2 : ℚ))

end InputHandler

/-- `entities/player.py` `Player`: the fields read or written by the
embedded game logic (`color` and `is_human` only affect drawing and
construction and are omitted). -/
structure Player where
  player_id : ℤ
  name : String
  rect : Rect
  speed : ℚ
  is_it : Bool
  it_time : ℚ
deriving Repr, DecidableEq

namespace Player

/-- `Player.move(dx, dy, dt)`. -/
def move (p : Player) (dx dy : ℚ) (dt : ℚ) : Player :=
  { p with rect := (p.rect.addX (pyTrunc (dx * p.speed * dt))).addY (pyTrunc (dy * p.speed * dt)) }

/-- `Player.clamp_to_bounds(bounds)`. -/
def clamp_to_bounds (p : Player) (bounds : Rect) : Player :=
  let r := p.rect
  let r := if r.left < bounds.left then r.setLeft bounds.left else r
  let r := if r.right > bounds.right then r.setRight bounds.right else r
  let r := if r.top < bounds.top then r.setTop bounds.top else r
  let r := if r.bottom > bounds.bottom then r.setBottom bounds.bottom else r
  { p with rect := r }

/-- `HumanPlayer.update(dt, input_handler, pressed)`. -/
def human_update (p : Player) (dt : ℚ) (ih : InputHandler)
    (pressed : Option (List Bool)) : Player :=
  let d := ih.get_direction p.player_id pressed
  p.move d.1 d.2 dt

end Player

namespace Tag

/-- Platform kinds of `games/tag.py` (`"normal"`, `"moving"`, `"drop"`,
`"speed"`). -/
inductive PlatKind
  | normal
  | moving
  | drop
  | speed
deriving Repr, DecidableEq

/-- `Platform` of `games/tag.py`. -/
structure Platform where
  rect : Rect
  kind : PlatKind
  move_speed : ℚ
  min_x : ℤ
  max_x : ℤ
  direction : ℤ
  last_dx : ℚ
deriving Repr, DecidableEq

/-- `Platform(rect, kind)` with default patrol bounds
(`min_x = rect.left`, `max_x = rect.right`). -/
def basicPlatform (rect : Rect) (kind : PlatKind) : Platform :=
  { rect := rect, kind := kind, move_speed := 0,
    min_x := rect.left, max_x := rect.right, direction := 1, last_dx := 0 }

/-- The moving-platform branch of `TagGame._generate_platforms`
(lines 160-194): the platform built for one row given the random draws
`x` (position), `width` and `move_speed`. -/
def generate_moving_platform (bounds : Rect) (top : ℤ) (x width : ℤ)
    (move_speed : ℚ) : Platform :=
  let h : ℤ := 20
  let rect : Rect := ⟨x, top, width, h⟩
  let patrol_margin : ℤ := 40
  let min_patrol_x := bounds.left + patrol_margin
  let max_patrol_x := bounds.right - patrol_margin - width
  let min_patrol_x := min min_patrol_x x
  let max_patrol_x := max max_patrol_x x
  { rect := rect, kind := PlatKind.moving, move_speed := move_speed,
    min_x := min_patrol_x, max_x := max_patrol_x, direction := 1, last_dx := 0 }

/-- `random.randint` lower bound for a platform's x position
(`margin_x = 40`). -/
def platformXMin (bounds : Rect) : ℤ := bounds.left + 40

/-- `random.randint` upper bound for a platform's x position. -/
def platformXMax (bounds : Rect) (width : ℤ) : ℤ := bounds.right - 40 - width

/-- `min_width = max(80, bounds.width // 10)`. -/
def platformWidthMin (bounds : Rect) : ℤ := max 80 (pyFloorDiv bounds.w 10)

/-- `max_width = max(min_width + 20, bounds.width // 6)`. -/
def platformWidthMax (bounds : Rect) : ℤ :=
  max (platformWidthMin bounds + 20) (pyFloorDiv bounds.w 6)

/-- The spec's Moving-platform patrol invariant:
`patrolMinX <= box.left` and `box.right <= patrolMaxX`. -/
def patrolOk (pl : Platform) : Prop :=
  pl.min_x ≤ pl.rect.left ∧ pl.rect.right ≤ pl.max_x

instance (pl : Platform) : Decidable (patrolOk pl) :=
  inferInstanceAs (Decidable (_ ∧ _))

/-- Per-platform movement step of `TagGame.update` (lines 244-256):
reset `last_dx`, move moving platforms, bounce at patrol limits. -/
def movePlatform (dt : ℚ) (plat : Platform) : Platform :=
  let plat := { plat with last_dx := 0 }
  if plat.kind == PlatKind.moving && decide (0 < plat.move_speed) then
    let dx := (plat.direction : ℚ) * plat.move_speed * dt
    let plat := { plat with rect := plat.rect.addX (pyTrunc dx) }
    let plat :=
      if plat.rect.left < plat.min_x then
        { plat with rect := plat.rect.setLeft plat.min_x, direction := 1 }
      else if plat.rect.right > plat.max_x then
        { plat with rect := plat.rect.setRight plat.max_x, direction := -1 }
      else plat
    { plat with last_dx := dx }
  else plat

/-- Per-player physics state: entry `i` of the parallel arrays
`vel_x`, `vel_y`, `grounded`, `last_jump_pressed`, `jump_buffer`,
`jumps_left`, `grounded_on`, `on_speed_platform` of `TagGame`. -/
structure PPhys where
  vel_x : ℚ
  vel_y : ℚ
  grounded : Bool
  last_jump_pressed : Bool
  jump_buffer : ℚ
  jumps_left : ℤ
  grounded_on : Option ℕ
  on_speed_platform : Bool
deriving Repr, DecidableEq

/-- A roster member together with its physics-array entry (the source
keeps the arrays parallel to `self.players`, indexed identically). -/
structure PState where
  player : Player
  phys : PPhys
deriving Repr, DecidableEq

/-- The freshly initialised physics entry of `__init__` / `reset`. -/
def initPhys (max_jumps : ℤ) : PPhys :=
  { vel_x := 0, vel_y := 0, grounded := false, last_jump_pressed := false,
    jump_buffer := 0, jumps_left := max_jumps, grounded_on := none,
    on_speed_platform := false }

/-- Drop-through condition of `TagGame.update` (lines 275-282):
grounded on a drop platform while holding Down and Jump. -/
def dropCond (platforms : List Platform) (st : PState) (jump down : Bool) : Bool :=
  st.phys.grounded &&
    (match st.phys.grounded_on with
     | some gi =>
       (match platforms[gi]? with
        | some pl => pl.kind == PlatKind.drop
        | none => false)
     | none => false) &&
    jump && down

/-- Lines 262-294 of `TagGame.update`: horizontal velocity from input,
drop-through nudge or edge-triggered arming of the 0.18 s jump buffer,
then recording `last_jump_pressed`. -/
def jumpInput (platforms : List Platform) (move_speed : ℚ) (dx : ℤ)
    (jump down : Bool) (st : PState) : PState :=
  let speed_factor : ℚ := if st.phys.on_speed_platform then 3/2 else 1
  let st := { st with phys := { st.phys with vel_x := (dx : ℚ) * move_speed * speed_factor } }
  let st :=
    if dropCond platforms st jump down then
      let st :=
        { st with
          player := { st.player with rect := st.player.rect.addY 4 },
          phys := { st.phys with grounded := false, grounded_on := none, on_speed_platform := false } }
      if st.phys.vel_y < 0 then { st with phys := { st.phys with vel_y := 0 } } else st
    else if jump && !st.phys.last_jump_pressed then
      { st with phys := { st.phys with jump_buffer := 18/100 } }
    else st
  { st with phys := { st.phys with last_jump_pressed := jump } }

/-- Lines 296-301 of `TagGame.update`: consume the jump buffer when
jumps remain, applying the impulse and decrementing the budget. -/
def consumeJump (jump_speed : ℚ) (st : PState) : PState :=
  if 0 < st.phys.jump_buffer ∧ 0 < st.phys.jumps_left then
    { st with phys := { st.phys with vel_y := -jump_speed, grounded := false, jump_buffer := 0, jumps_left := st.phys.jumps_left - 1 } }
  else st

/-- Line 304: gravity accumulation. -/
def applyGravity (gravity dt : ℚ) (st : PState) : PState :=
  { st with phys := { st.phys with vel_y := st.phys.vel_y + gravity * dt } }

/-- Lines 306-312: horizontal integration and arena clamp. -/
def horizontalPhase (bounds : Rect) (dt : ℚ) (st : PState) : PState :=
  let r := st.player.rect.addX (pyTrunc (st.phys.vel_x * dt))
  let r := if r.left < bounds.left then r.setLeft bounds.left else r
  let r := if r.right > bounds.right then r.setRight bounds.right else r
  { st with player := { st.player with rect := r } }

/-- One iteration of the platform-landing loop (lines 343-356). -/
def landOnPlatform (old_bottom max_jumps : ℤ) (st : PState) (ip : ℕ × Platform) :
    PState :=
  if decide (0 ≤ st.phys.vel_y) && st.player.rect.colliderect ip.2.rect &&
      decide (old_bottom ≤ ip.2.rect.top) then
    { st with
      player := { st.player with rect := st.player.rect.setBottom ip.2.rect.top },
      phys := { st.phys with vel_y := 0, grounded := true, grounded_on := some ip.1, on_speed_platform := ip.2.kind == PlatKind.speed, jumps_left := max_jumps } }
  else st

/-- Lines 316-340: vertical integration, the not-grounded flag while
falling, the ceiling clamp, and the ground landing (from above only,
via the previous frame's bottom edge `old_bottom`). -/
def verticalCore (bounds ground_rect : Rect) (max_jumps : ℤ) (old_bottom : ℤ)
    (dt : ℚ) (st : PState) : PState :=
  let st := { st with player := { st.player with rect := st.player.rect.addY (pyTrunc (st.phys.vel_y * dt)) } }
  let st :=
    if 0 < st.phys.vel_y then
      { st with phys := { st.phys with grounded := false, grounded_on := none, on_speed_platform := false } }
    else st
  let st :=
    if st.player.rect.top < bounds.top then
      let st := { st with player := { st.player with rect := st.player.rect.setTop bounds.top } }
      if st.phys.vel_y < 0 then { st with phys := { st.phys with vel_y := 0 } } else st
    else st
  let st :=
    if decide ((0 : ℚ) ≤ st.phys.vel_y) && st.player.rect.colliderect ground_rect &&
        decide (old_bottom ≤ ground_rect.top) then
      { st with
        player := { st.player with rect := st.player.rect.setBottom ground_rect.top },
        phys := { st.phys with vel_y := 0, grounded := true, grounded_on := none, on_speed_platform := false, jumps_left := max_jumps } }
    else st
  st

/-- Lines 314-361: vertical integration, ceiling, ground and platform
landing (from above only, using the previous frame's bottom edge), and
clearing platform state while airborne. -/
def verticalPhase (bounds ground_rect : Rect) (platforms : List Platform)
    (max_jumps : ℤ) (dt : ℚ) (st : PState) : PState :=
  let old_bottom := st.player.rect.bottom
  let st := verticalCore bounds ground_rect max_jumps old_bottom dt st
  let st := platforms.enum.foldl (landOnPlatform old_bottom max_jumps) st
  if !st.phys.grounded then
    { st with phys := { st.phys with grounded_on := none, on_speed_platform := false } }
  else st

/-- Lines 363-376: jump-buffer timer decay and riding moving
platforms by their last frame delta. -/
def bufferAndRide (platforms : List Platform) (dt : ℚ) (st : PState) : PState :=
  let st :=
    if 0 < st.phys.jump_buffer then
      { st with phys := { st.phys with jump_buffer := max 0 (st.phys.jump_buffer - dt) } }
    else st
  if st.phys.grounded then
    match st.phys.grounded_on with
    | some gi =>
      match platforms[gi]? with
      | some pl =>
        if pl.kind == PlatKind.moving && pl.last_dx != 0 then
          { st with player := { st.player with rect := st.player.rect.addX (pyTrunc pl.last_dx) } }
        else st
      | none => st
    | none => st
  else st

/-- The Tag game-session state (`TagGame` of `games/tag.py`). -/
structure TagGame where
  players : List PState
  bounds : Rect
  match_time : ℚ
  remaining : ℚ
  map_index : ℤ
  double_jump_enabled : Bool
  moving_enabled : Bool
  dropthrough_enabled : Bool
  speed_enabled : Bool
  gravity : ℚ
  move_speed : ℚ
  jump_speed : ℚ
  ground_height : ℤ
  max_jumps : ℤ
  ground_rect : Rect
  platforms : List Platform
  current_it_id : ℤ
  is_over : Bool
  tag_cooldown : ℚ
  tag_cooldown_duration : ℚ
deriving Repr

/-- The whole per-player physics body of `TagGame.update`
(lines 259-376), for the already-moved platform list. -/
def physStep (g : TagGame) (platforms : List Platform) (ih : InputHandler)
    (pressed : Option (List Bool)) (dt : ℚ) (st : PState) : PState :=
  let pid := st.player.player_id
  let a := ih.get_axes pid pressed
  let jump := ih.is_action_pressed pid actUp pressed
  let down := ih.is_action_pressed pid actDown pressed
  bufferAndRide platforms dt
    (verticalPhase g.bounds g.ground_rect platforms g.max_jumps dt
      (horizontalPhase g.bounds dt
        (applyGravity g.gravity dt
          (consumeJump g.jump_speed
            (jumpInput platforms g.move_speed a.1 jump down st)))))

def clearIt (st : PState) : PState :=
  { st with player := { st.player with is_it := false } }

def setIt (st : PState) : PState :=
  { st with player := { st.player with is_it := true } }

def addItTime (dt : ℚ) (st : PState) : PState :=
  { st with player := { st.player with it_time := st.player.it_time + dt } }

/-- Rect of the roster entry at an index (total, with an unreachable
default). -/
def rectAt (l : List PState) (i : ℕ) : Rect :=
  match l[i]? with
  | some st => st.player.rect
  | none => ⟨0, 0, 0, 0⟩

/-- Player id of the roster entry at an index. -/
def idAt (l : List PState) (i : ℕ) : ℤ :=
  match l[i]? with
  | some st => st.player.player_id
  | none => 0

/-- The collision scan of lines 381-392: first roster index other than
the IT holder's (`p is it_player` is positional identity) whose box
overlaps the IT holder's box. -/
def findTagged (itRect : Rect) (skip : ℕ) (l : List PState) : Option ℕ :=
  firstIdx (fun js => decide (js.1 ≠ skip) && itRect.colliderect js.2.player.rect) l.enum

/-- Result of the tag-transfer block. -/
structure TransferOut where
  players : List PState
  current_it_id : ℤ
  tag_cooldown : ℚ
  it_idx : Option ℕ

/-- Lines 378-392 of `TagGame.update`: find the IT holder
(`next(x for x in players if x.player_id == current_it_id)`), and if
the cooldown is zero transfer IT to the first overlapping other player,
starting the cooldown; at most one transfer (`break`). `it_idx` is the
index of the final IT holder (`it_player`), if any. -/
def transferPhase (players : List PState) (curId : ℤ) (cooldown dur : ℚ) :
    TransferOut :=
  match firstIdx (fun st => st.player.player_id == curId) players with
  | none => ⟨players, curId, cooldown, none⟩
  | some i0 =>
    if cooldown ≤ 0 then
      match findTagged (rectAt players i0) i0 players with
      | some j => ⟨setAt (setAt players i0 clearIt) j setIt, idAt players j, dur, some j⟩
      | none => ⟨players, curId, cooldown, some i0⟩
    else ⟨players, curId, cooldown, some i0⟩

/-- Lines 394-396: the final IT holder accumulates `dt` of IT time. -/
def accruePhase (players : List PState) (it_idx : Option ℕ) (dt : ℚ) :
    List PState :=
  match it_idx with
  | none => players
  | some k => setAt players k (addItTime dt)

/-- `TagGame.update(dt, input_handler, pressed)`. -/
def update (g : TagGame) (ih : InputHandler) (pressed : Option (List Bool))
    (dt : ℚ) : TagGame :=
  if g.is_over then g
  else
    let remaining := g.remaining - dt
    if remaining ≤ 0 then { g with remaining := 0, is_over := true }
    else
      let cooldown := if 0 < g.tag_cooldown then max 0 (g.tag_cooldown - dt) else g.tag_cooldown
      let platforms := g.platforms.map (movePlatform dt)
      let players := g.players.map (physStep g platforms ih pressed dt)
      let t := transferPhase players g.current_it_id cooldown g.tag_cooldown_duration
      { g with remaining := remaining, tag_cooldown := t.tag_cooldown,
               platforms := platforms, players := accruePhase t.players t.it_idx dt,
               current_it_id := t.current_it_id }

/-- `TagGame.__init__`: `chosen_it` is the id drawn by
`random.choice(players)` and `platforms` the randomized result of
`_generate_platforms()`. -/
def init (roster : List Player) (bounds : Rect) (match_time : ℚ) (map_index : ℤ)
    (double_jump enable_moving enable_dropthrough enable_speed : Bool)
    (chosen_it : ℤ) (platforms : List Platform) : TagGame :=
  let max_jumps : ℤ := if double_jump then 2 else 1
  { players := roster.map (fun p =>
      { player := { p with is_it := decide (p.player_id = chosen_it), it_time := 0 },
        phys := initPhys max_jumps }),
    bounds := bounds,
    match_time := match_time,
    remaining := match_time,
    map_index := map_index % 3,
    double_jump_enabled := double_jump,
    moving_enabled := enable_moving,
    dropthrough_enabled := enable_dropthrough,
    speed_enabled := enable_speed,
    gravity := 1400,
    move_speed := 260,
    jump_speed := 700,
    ground_height := 40,
    max_jumps := max_jumps,
    ground_rect := ⟨bounds.left, bounds.y + bounds.h - 40, bounds.w, 40⟩,
    platforms := platforms,
    current_it_id := chosen_it,
    is_over := false,
    tag_cooldown := 0,
    tag_cooldown_duration := 8/10 }

/-- `TagGame.reset()`, with the random IT choice and regenerated
platforms passed explicitly. -/
def reset (g : TagGame) (chosen_it : ℤ) (platforms : List Platform) : TagGame :=
  let max_jumps : ℤ := if g.double_jump_enabled then 2 else 1
  let n := g.players.length
  let spacing := pyFloorDiv g.bounds.w ((n : ℤ) + 1)
  { g with
    remaining := g.match_time,
    is_over := false,
    current_it_id := chosen_it,
    tag_cooldown := 0,
    platforms := platforms,
    max_jumps := max_jumps,
    players := g.players.mapIdx (fun i st =>
      let px := g.bounds.left + spacing * ((i : ℤ) + 1)
      let r := { st.player.rect with x := px - pyFloorDiv st.player.rect.w 2 }
      let r := r.setBottom g.ground_rect.top
      { player := { st.player with rect := r, is_it := decide (st.player.player_id = chosen_it), it_time := 0 },
        phys := initPhys max_jumps }) }

/-- A sequence of `update` calls (one per rendered frame). -/
def runUpdates (g : TagGame) (steps : List (InputHandler × Option (List Bool) × ℚ)) :
    TagGame :=
  steps.foldl (fun g s => update g s.1 s.2.1 s.2.2) g

/-- The IT time credited over a frame sequence: every frame of an
active match that does not expire the timer credits its full `dt`
(the expiring frame credits nothing). -/
def creditedTime : TagGame → List (InputHandler × Option (List Bool) × ℚ) → ℚ
  | _, [] => 0
  | g, s :: rest =>
    (if g.is_over = false ∧ 0 < g.remaining - s.2.2 then s.2.2 else 0) +
      creditedTime (update g s.1 s.2.1 s.2.2) rest

/-- Total IT time accumulated across the whole roster. -/
def itSum (g : TagGame) : ℚ :=
  (g.players.map (fun st => st.player.it_time)).sum

/-- Roster entries carry pairwise distinct player ids. -/
def distinctIds (l : List PState) : Prop :=
  l.Pairwise (fun a b => a.player.player_id ≠ b.player.player_id)

/-- `is_it` marks exactly the roster members whose id is
`current_it_id`. -/
def itConsistent (g : TagGame) : Prop :=
  ∀ st ∈ g.players, (st.player.is_it = true ↔ st.player.player_id = g.current_it_id)

/-- Some roster member holds the current IT id. -/
def itPresent (g : TagGame) : Prop :=
  ∃ st ∈ g.players, st.player.player_id = g.current_it_id

/-- The Tag state invariant: distinct ids, the IT id names a roster
member, and `is_it` flags agree with `current_it_id`. -/
def tagInv (g : TagGame) : Prop :=
  distinctIds g.players ∧ itPresent g ∧ itConsistent g

end Tag

namespace Survival

/-- The four spawn edges (`"left"`, `"right"`, `"top"`, `"bottom"`). -/
inductive Side
  | left
  | right
  | top
  | bottom
deriving Repr, DecidableEq

/-- The tuple returned by `_difficulty`:
`(spawn_interval, speed, active_sides, concurrent_per_side)`. -/
structure Difficulty where
  spawn_interval : ℚ
  speed : ℚ
  active_sides : ℕ
  concurrent : ℕ
deriving Repr

/-- `SurvivalGame` of `games/survival.py`; the `spawn_timers` dict has
the four fixed keys, one field each. -/
structure SurvivalGame where
  player : Player
  bounds : Rect
  elapsed : ℚ
  is_over : Bool
  hazards : List (Rect × ℚ × ℚ)
  timer_left : ℚ
  timer_right : ℚ
  timer_top : ℚ
  timer_bottom : ℚ
  spawn_interval : ℚ
  min_spawn_interval : ℚ
  base_speed : ℚ
  max_speed : ℚ
  side_cycle_idx : ℤ
deriving Repr

def getTimer (g : SurvivalGame) (s : Side) : ℚ :=
  match s with
  | Side.left => g.timer_left
  | Side.right => g.timer_right
  | Side.top => g.timer_top
  | Side.bottom => g.timer_bottom

def setTimer (g : SurvivalGame) (s : Side) (v : ℚ) : SurvivalGame :=
  match s with
  | Side.left => { g with timer_left := v }
  | Side.right => { g with timer_right := v }
  | Side.top => { g with timer_top := v }
  | Side.bottom => { g with timer_bottom := v }

/-- `SurvivalGame._difficulty()`: piecewise-linear ramp over 45 s,
clamped, plus stepped side-count and concurrency thresholds. -/
def difficulty (g : SurvivalGame) : Difficulty :=
  let t := min (g.elapsed / 45) 1
  let cur_interval := g.spawn_interval - t * (g.spawn_interval - g.min_spawn_interval)
  let cur_interval := max g.min_spawn_interval cur_interval
  let cur_speed := g.base_speed + t * (g.max_speed - g.base_speed)
  let cur_speed := min g.max_speed cur_speed
  let active_sides : ℕ := if g.elapsed < 12 then 2 else if g.elapsed < 24 then 3 else 4
  let concurrent : ℕ := if g.elapsed < 15 then 1 else if g.elapsed < 30 then 2 else 3
  { spawn_interval := cur_interval, speed := cur_speed,
    active_sides := active_sides, concurrent := concurrent }

/-- `SurvivalGame._spawn_hazard(side, speed)`: `draw` is the
`random.randint` result for the coordinate along the chosen edge. -/
def spawn_hazard (bounds : Rect) (side : Side) (speed : ℚ) (draw : ℤ) :
    Rect × ℚ × ℚ :=
  let w : ℤ := 40
  let h : ℤ := 40
  match side with
  | Side.left => (⟨bounds.x - w - 12, draw, w, h⟩, speed, 0)
  | Side.right => (⟨bounds.x + bounds.w + 12, draw, w, h⟩, -speed, 0)
  | Side.top => (⟨draw, bounds.y - h - 12, w, h⟩, 0, speed)
  | Side.bottom => (⟨draw, bounds.y + bounds.h + 12, w, h⟩, 0, -speed)

/-- Lower `random.randint` bound of the placement draw for a side. -/
def drawLo (bounds : Rect) (side : Side) : ℤ :=
  match side with
  | Side.left | Side.right => bounds.y + 20
  | Side.top | Side.bottom => bounds.x + 20

/-- Upper `random.randint` bound of the placement draw for a side
(hazard size is 40). -/
def drawHi (bounds : Rect) (side : Side) : ℤ :=
  match side with
  | Side.left | Side.right => bounds.y + bounds.h - 20 - 40
  | Side.top | Side.bottom => bounds.x + bounds.w - 20 - 40

/-- `order = ["left", "top", "right", "bottom"]`. -/
def sideOrder : List Side := [Side.left, Side.top, Side.right, Side.bottom]

/-- `order[rot:] + order[:rot]` with `rot = side_cycle_idx % 4`. -/
def rotatedOrder (idx : ℤ) : List Side :=
  let rot := (idx % 4).toNat
  sideOrder.drop rot ++ sideOrder.take rot

/-- `for _ in range(concurrent): self._spawn_hazard(side, speed)`,
consuming one random draw per hazard (`rng` is the draw stream, the
second component the stream position). -/
def spawnN (bounds : Rect) (side : Side) (speed : ℚ) (rng : ℕ → ℤ) :
    ℕ → ℕ → List (Rect × ℚ × ℚ) → List (Rect × ℚ × ℚ) × ℕ
  | 0, k, hz => (hz, k)
  | n + 1, k, hz => spawnN bounds side speed rng n (k + 1) (hz ++ [spawn_hazard bounds side speed (rng k)])

/-- Per-side generator step of `SurvivalGame.update` (lines 117-122). -/
def spawnSide (dt cur_interval speed : ℚ) (concurrent : ℕ) (rng : ℕ → ℤ)
    (acc : SurvivalGame × ℕ) (side : Side) : SurvivalGame × ℕ :=
  let g := setTimer acc.1 side (getTimer acc.1 side + dt)
  if cur_interval ≤ getTimer g side then
    let g := setTimer g side 0
    let hk := spawnN g.bounds side speed rng concurrent acc.2 g.hazards
    ({ g with hazards := hk.1 }, hk.2)
  else (g, acc.2)

/-- Lines 125-137 of `SurvivalGame.update`: move every hazard in
place, abort the whole update on player contact (`return` mid-loop:
later hazards stay unmoved and the cull is discarded), otherwise keep
hazards within the 120 px expanded bounds. Returns the resulting
hazard list and the collision flag. -/
def moveHazards (player_rect bounds : Rect) (dt : ℚ) :
    List (Rect × ℚ × ℚ) → List (Rect × ℚ × ℚ) × Bool
  | [] => ([], false)
  | (r, v) :: rest =>
    let r := (r.addX (pyTrunc (v.1 * dt))).addY (pyTrunc (v.2 * dt))
    if r.colliderect player_rect then ((r, v) :: rest, true)
    else
      let res := moveHazards player_rect bounds dt rest
      if res.2 then ((r, v) :: res.1, true)
      else if (bounds.inflate 120 120).colliderect r then ((r, v) :: res.1, false)
      else (res.1, false)

/-- `SurvivalGame.update(dt, input_handler, pressed)` with the random
placement draws supplied by the stream `rng`. -/
def update (g : SurvivalGame) (dt : ℚ) (ih : InputHandler)
    (pressed : Option (List Bool)) (rng : ℕ → ℤ) : SurvivalGame :=
  if g.is_over then g
  else
    let g := { g with player := g.player.human_update dt ih pressed }
    if !(g.bounds.contains g.player.rect) then { g with is_over := true }
    else
      let d := difficulty g
      let order := rotatedOrder g.side_cycle_idx
      let sides_to_use := order.take d.active_sides
      let g := { g with side_cycle_idx := g.side_cycle_idx + 1 }
      let gk := sides_to_use.foldl (spawnSide dt d.spawn_interval d.speed d.concurrent rng) (g, 0)
      let g := gk.1
      let mh := moveHazards g.player.rect g.bounds dt g.hazards
      if mh.2 then { g with hazards := mh.1, is_over := true }
      else { g with hazards := mh.1, elapsed := g.elapsed + dt }

end Survival

namespace SurvivalPvp

open Survival (Side Difficulty)

/-- `SurvivalPvpGame` of `games/survival.py`: shared arena, per-player
`alive` and `elim_time` dicts keyed by player id. -/
structure SurvivalPvpGame where
  players : List Player
  bounds : Rect
  elapsed : ℚ
  is_over : Bool
  alive : List (ℤ × Bool)
  elim_time : List (ℤ × ℚ)
  hazards : List (Rect × ℚ × ℚ)
  timer_left : ℚ
  timer_right : ℚ
  timer_top : ℚ
  timer_bottom : ℚ
  spawn_interval : ℚ
  min_spawn_interval : ℚ
  base_speed : ℚ
  max_speed : ℚ
  side_cycle_idx : ℤ
deriving Repr

def getTimer (g : SurvivalPvpGame) (s : Side) : ℚ :=
  match s with
  | Side.left => g.timer_left
  | Side.right => g.timer_right
  | Side.top => g.timer_top
  | Side.bottom => g.timer_bottom

def setTimer (g : SurvivalPvpGame) (s : Side) (v : ℚ) : SurvivalPvpGame :=
  match s with
  | Side.left => { g with timer_left := v }
  | Side.right => { g with timer_right := v }
  | Side.top => { g with timer_top := v }
  | Side.bottom => { g with timer_bottom := v }

/-- `SurvivalPvpGame._difficulty()` (identical formula to the
singleplayer variant, written with conditional expressions). -/
def difficulty (g : SurvivalPvpGame) : Difficulty :=
  let t := min (g.elapsed / 45) 1
  let cur_interval := g.spawn_interval - t * (g.spawn_interval - g.min_spawn_interval)
  let cur_interval := max g.min_spawn_interval cur_interval
  let cur_speed := g.base_speed + t * (g.max_speed - g.base_speed)
  let cur_speed := min g.max_speed cur_speed
  let active_sides : ℕ := if g.elapsed < 12 then 2 else if g.elapsed < 24 then 3 else 4
  let concurrent : ℕ := if g.elapsed < 15 then 1 else if g.elapsed < 30 then 2 else 3
  { spawn_interval := cur_interval, speed := cur_speed,
    active_sides := active_sides, concurrent := concurrent }

/-- `SurvivalPvpGame._spawn_hazard(side, speed)` (same body as the
singleplayer variant). -/
def spawn_hazard (bounds : Rect) (side : Side) (speed : ℚ) (draw : ℤ) :
    Rect × ℚ × ℚ :=
  let w : ℤ := 40
  let h : ℤ := 40
  match side with
  | Side.left => (⟨bounds.x - w - 12, draw, w, h⟩, speed, 0)
  | Side.right => (⟨bounds.x + bounds.w + 12, draw, w, h⟩, -speed, 0)
  | Side.top => (⟨draw, bounds.y - h - 12, w, h⟩, 0, speed)
  | Side.bottom => (⟨draw, bounds.y + bounds.h + 12, w, h⟩, 0, -speed)

def spawnN (bounds : Rect) (side : Side) (speed : ℚ) (rng : ℕ → ℤ) :
    ℕ → ℕ → List (Rect × ℚ × ℚ) → List (Rect × ℚ × ℚ) × ℕ
  | 0, k, hz => (hz, k)
  | n + 1, k, hz => spawnN bounds side speed rng n (k + 1) (hz ++ [spawn_hazard bounds side speed (rng k)])

def spawnSide (dt cur_interval speed : ℚ) (concurrent : ℕ) (rng : ℕ → ℤ)
    (acc : SurvivalPvpGame × ℕ) (side : Side) : SurvivalPvpGame × ℕ :=
  let g := setTimer acc.1 side (getTimer acc.1 side + dt)
  if cur_interval ≤ getTimer g side then
    let g := setTimer g side 0
    let hk := spawnN g.bounds side speed rng concurrent acc.2 g.hazards
    ({ g with hazards := hk.1 }, hk.2)
  else (g, acc.2)

/-- Lines 275-282: move hazards and keep those within the expanded
bounds (no player collision inside this loop in the PvP variant). -/
def moveHazardsPvp (bounds : Rect) (dt : ℚ) :
    List (Rect × ℚ × ℚ) → List (Rect × ℚ × ℚ)
  | [] => []
  | (r, v) :: rest =>
    let r := (r.addX (pyTrunc (v.1 * dt))).addY (pyTrunc (v.2 * dt))
    if (bounds.inflate 120 120).colliderect r then (r, v) :: moveHazardsPvp bounds dt rest
    else moveHazardsPvp bounds dt rest

/-- `self.alive[pid]` (the key is always present by construction). -/
def aliveAt (g : SurvivalPvpGame) (pid : ℤ) : Bool := dictGet g.alive pid false

/-- `SurvivalPvpGame.update(dt, input_handler, pressed)`. -/
def update (g : SurvivalPvpGame) (dt : ℚ) (ih : InputHandler)
    (pressed : Option (List Bool)) (rng : ℕ → ℤ) : SurvivalPvpGame :=
  if g.is_over then g
  else
    let g := { g with players := g.players.map (fun p =>
      if aliveAt g p.player_id then (p.human_update dt ih pressed).clamp_to_bounds g.bounds
      else p) }
    let d := difficulty g
    let order := Survival.rotatedOrder g.side_cycle_idx
    let sides_to_use := order.take d.active_sides
    let g := { g with side_cycle_idx := g.side_cycle_idx + 1 }
    let gk := sides_to_use.foldl (spawnSide dt d.spawn_interval d.speed d.concurrent rng) (g, 0)
    let g := gk.1
    let g := { g with hazards := moveHazardsPvp g.bounds dt g.hazards }
    let g := g.players.foldl (fun g p =>
      if aliveAt g p.player_id && g.hazards.any (fun hz => hz.1.colliderect p.rect) then
        { g with alive := dictSet g.alive p.player_id false,
                 elim_time := dictSet g.elim_time p.player_id g.elapsed }
      else g) g
    let survivors : ℕ := g.alive.countP (fun ab => ab.2)
    let g : SurvivalPvpGame := { g with elapsed := g.elapsed + dt }
    if survivors ≤ 1 then { g with is_over := true } else g

end SurvivalPvp

namespace BrickBreaker

/-- `BrickBreakerGame` of `games/brick_breaker.py`. -/
structure BrickBreakerGame where
  bounds : Rect
  paddle : Rect
  paddle_speed : ℚ
  move_left : Bool
  move_right : Bool
  ball_size : ℤ
  ball_x : ℚ
  ball_y : ℚ
  ball_vx : ℚ
  ball_vy : ℚ
  ball_speed : ℚ
  prev_ball_x : ℚ
  prev_ball_y : ℚ
  bricks : List Rect
  score : ℤ
  lives : ℤ
  is_over : Bool
  results_header : Option String
deriving Repr

/-- `BrickBreakerGame._ball_rect()`. -/
def ball_rect (g : BrickBreakerGame) : Rect :=
  ⟨pyTrunc g.ball_x, pyTrunc g.ball_y, g.ball_size, g.ball_size⟩

/-- `BrickBreakerGame.update(dt, input_handler, pressed)`. The
floating-point square root of the paddle-bounce normalisation is the
oracle `sqrtQ`, and `vx_draw` is the `random.choice` result used when
the ball is re-served after a lost life. -/
def update (g : BrickBreakerGame) (dt : ℚ) (sqrtQ : ℚ → ℚ) (vx_draw : ℚ) :
    BrickBreakerGame :=
  if g.is_over then g
  else
    let g := { g with prev_ball_x := g.ball_x, prev_ball_y := g.ball_y }
    let g := if g.move_left then { g with paddle := g.paddle.addX (-(pyTrunc (g.paddle_speed * dt))) } else g
    let g := if g.move_right then { g with paddle := g.paddle.addX (pyTrunc (g.paddle_speed * dt)) } else g
    let g := if g.paddle.left < g.bounds.left + 4 then { g with paddle := g.paddle.setLeft (g.bounds.left + 4) } else g
    let g := if g.paddle.right > g.bounds.right - 4 then { g with paddle := g.paddle.setRight (g.bounds.right - 4) } else g
    let g := { g with ball_x := g.ball_x + g.ball_vx * dt, ball_y := g.ball_y + g.ball_vy * dt }
    let g := if (ball_rect g).left ≤ g.bounds.left then { g with ball_x := (g.bounds.left : ℚ), ball_vx := |g.ball_vx| } else g
    let g := if (ball_rect g).right ≥ g.bounds.right then { g with ball_x := ((g.bounds.right - g.ball_size : ℤ) : ℚ), ball_vx := -|g.ball_vx| } else g
    let g := if (ball_rect g).top ≤ g.bounds.top then { g with ball_y := (g.bounds.top : ℚ), ball_vy := |g.ball_vy| } else g
    let g :=
      if (ball_rect g).colliderect g.paddle && decide (0 < g.ball_vy) then
        let prev : Rect := ⟨pyTrunc g.prev_ball_x, pyTrunc g.prev_ball_y, g.ball_size, g.ball_size⟩
        if decide (prev.bottom ≤ g.paddle.top) then
          let hit_offset := (((ball_rect g).centerx - g.paddle.centerx : ℤ) : ℚ) / ((g.paddle.w : ℚ) / 2)
          let g := { g with ball_vy := -|g.ball_vy|, ball_vx := hit_offset * g.ball_speed }
          let sp := sqrtQ (g.ball_vx ^ 2 + g.ball_vy ^ 2)
          let g :=
            if 1/1000 < sp then
              { g with ball_vx := g.ball_vx * (g.ball_speed / sp), ball_vy := g.ball_vy * (g.ball_speed / sp) }
            else g
          { g with ball_y := ((g.paddle.top - g.ball_size - 1 : ℤ) : ℚ) }
        else if decide (prev.right ≤ g.paddle.left) then
          { g with ball_vx := -|g.ball_vx|, ball_x := ((g.paddle.left - g.ball_size - 1 : ℤ) : ℚ) }
        else if decide (prev.left ≥ g.paddle.right) then
          { g with ball_vx := |g.ball_vx|, ball_x := ((g.paddle.right + 1 : ℤ) : ℚ) }
        else
          { g with ball_vy := -|g.ball_vy|, ball_y := ((g.paddle.top - g.ball_size - 1 : ℤ) : ℚ) }
      else g
    let hit := firstIdx (fun b => (ball_rect g).colliderect b) g.bricks
    let g :=
      match hit with
      | none => g
      | some i =>
        let rect := match g.bricks[i]? with
                    | some b => b
                    | none => ⟨0, 0, 0, 0⟩
        let g := { g with bricks := g.bricks.eraseIdx i, score := g.score + 1 }
        let prev : Rect := ⟨pyTrunc g.prev_ball_x, pyTrunc g.prev_ball_y, g.ball_size, g.ball_size⟩
        let ball := ball_rect g
        if decide (prev.bottom ≤ rect.top) && decide (ball.bottom ≥ rect.top) then
          { g with ball_vy := -|g.ball_vy|, ball_y := ((rect.top - g.ball_size - 1 : ℤ) : ℚ) }
        else if decide (prev.top ≥ rect.bottom) && decide (ball.top ≤ rect.bottom) then
          { g with ball_vy := |g.ball_vy|, ball_y := ((rect.bottom + 1 : ℤ) : ℚ) }
        else if decide (prev.right ≤ rect.left) && decide (ball.right ≥ rect.left) then
          { g with ball_vx := -|g.ball_vx|, ball_x := ((rect.left - g.ball_size - 1 : ℤ) : ℚ) }
        else if decide (prev.left ≥ rect.right) && decide (ball.left ≤ rect.right) then
          { g with ball_vx := |g.ball_vx|, ball_x := ((rect.right + 1 : ℤ) : ℚ) }
        else
          { g with ball_vy := -g.ball_vy }
    let g :=
      if (ball_rect g).top > g.bounds.bottom then
        let g : BrickBreakerGame := { g with lives := g.lives - 1 }
        if g.lives ≤ 0 then { g with is_over := true, results_header := some "Game Over" }
        else
          { g with ball_x := ((g.paddle.centerx : ℤ) : ℚ) - (g.ball_size : ℚ) / 2,
                   ball_y := ((g.paddle.top - 16 : ℤ) : ℚ), ball_vx := vx_draw, ball_vy := -220 }
      else g
    if g.bricks.isEmpty && !g.is_over then { g with is_over := true, results_header := some "Victory!" }
    else g

end BrickBreaker

namespace TrailLock

/-- The `while` loop of `TrailLockGame.update` (lines 146-148): apply
whole-pixel symmetric shrinks while a full pixel is accumulated and
the arena is above the 120 px floor. -/
def shrinkLoop (arena : Rect) (acc : ℚ) : Rect × ℚ :=
  if h : 1 ≤ acc ∧ 120 < arena.w ∧ 120 < arena.h then
    shrinkLoop (arena.inflate (-2) (-2)) (acc - 1)
  else (arena, acc)
termination_by (⌊acc⌋).toNat
decreasing_by
  have h1 : 1 ≤ acc := h.1
  have h3 : (1 : ℤ) ≤ ⌊acc⌋ := Int.le_floor.mpr (by exact_mod_cast h1)
  have h2 : ⌊acc - (1 : ℚ)⌋ = ⌊acc⌋ - 1 := by
    simp [Int.floor_sub_int acc (1 : ℤ)]
  simp only [h2]
  omega

/-- Lines 144-148 of `TrailLockGame.update`: accumulate the fractional
shrink (`shrink_accum += shrink_rate * dt`), then run the whole-pixel
shrink loop. Returns the new arena and accumulator. -/
def shrink_step (arena : Rect) (shrink_accum shrink_rate dt : ℚ) : Rect × ℚ :=
  shrinkLoop arena (shrink_accum + shrink_rate * dt)

end TrailLock

namespace Tag

/-- `tagInv` split off from a game state: invariant of a roster list
together with a current IT id. -/
def tagInvP (l : List PState) (cur : ℤ) : Prop :=
  distinctIds l ∧ (∃ st ∈ l, st.player.player_id = cur) ∧
    ∀ st ∈ l, (st.player.is_it = true ↔ st.player.player_id = cur)

/-- Two roster lists agree pointwise on player ids and IT flags. -/
def idsItEq (l1 l2 : List PState) : Prop :=
  ∀ k : ℕ, l1[k]?.map (fun st => (st.player.player_id, st.player.is_it)) =
    l2[k]?.map (fun st => (st.player.player_id, st.player.is_it))

/-- Two per-player states agree on id, IT flag and IT time (the fields
the physics code never touches). -/
def metaEq (a b : PState) : Prop :=
  a.player.player_id = b.player.player_id ∧ a.player.is_it = b.player.is_it ∧
    a.player.it_time = b.player.it_time

instance (l : List PState) : Decidable (distinctIds l) :=
  inferInstanceAs (Decidable (l.Pairwise _))

instance (g : TagGame) : Decidable (itPresent g) :=
  inferInstanceAs (Decidable (∃ st ∈ g.players, st.player.player_id = g.current_it_id))

instance (g : TagGame) : Decidable (itConsistent g) :=
  inferInstanceAs (Decidable (∀ st ∈ g.players, _ ↔ _))

instance (g : TagGame) : Decidable (tagInv g) :=
  inferInstanceAs (Decidable (_ ∧ _ ∧ _))

end Tag

/-! ### Concrete inputs for witnesses and counterexamples -/

/-- A 1000 x 1000 arena. -/
def wbounds : Rect := ⟨0, 0, 1000, 1000⟩

def wp1 : Player :=
  { player_id := 1, name := "P1", rect := ⟨100, 100, 40, 40⟩, speed := 200,
    is_it := false, it_time := 0 }

def wp2 : Player :=
  { player_id := 2, name := "P2", rect := ⟨600, 100, 40, 40⟩, speed := 200,
    is_it := false, it_time := 0 }

/-- Same id 2 but overlapping `wp1`'s box. -/
def wp3 : Player :=
  { player_id := 2, name := "P3", rect := ⟨110, 100, 40, 40⟩, speed := 200,
    is_it := false, it_time := 0 }

/-- An input handler with no mappings and no held keys. -/
def ihEmpty : InputHandler := ⟨[], []⟩

/-- Player 1's jump key (keycode 5) bound and held. -/
def wihUp : InputHandler := ⟨[(1, [(actUp, 5)])], [5]⟩

/-- Player 1 with only a left binding (keycode 4): `up`, `down` and
`right` are unmapped. -/
def wihLeftOnly : InputHandler := ⟨[(1, [(actLeft, 4)])], [4]⟩

/-- A fresh 60-second Tag match between `wp1` and `wp2`, player 1 IT,
no platforms generated. -/
def wtag60 : Tag.TagGame := Tag.init [wp1, wp2] wbounds 60 0 false false false false 1 []

/-- A 1-second Tag match (used to hit the timer-expiry path). -/
def wtag1 : Tag.TagGame := Tag.init [wp1, wp2] wbounds 1 0 false false false false 1 []

/-- A finished Tag match. -/
def wtagOver : Tag.TagGame := { wtag60 with is_over := true }

/-- State immediately after a tag transfer: full 0.8 s cooldown. -/
def wtagCd : Tag.TagGame := { wtag60 with tag_cooldown := 4/5 }

/-- Single airborne player holding a fresh jump budget (exactly the
post-construction state: `grounded = [False]`, `jumps_left = [1]`). -/
def wtagAir : Tag.TagGame := Tag.init [wp1] wbounds 60 0 false false false false 1 []

/-- Fresh Tag match with the IT player's box overlapping player 2's. -/
def wtagOverlap : Tag.TagGame := Tag.init [wp1, wp3] wbounds 60 0 false false false false 1 []

/-- A moving platform generated at the right margin of `wbounds`
(legal draws: width 100, x 860). -/
def wplat : Tag.Platform := Tag.generate_moving_platform wbounds 300 860 100 100

/-- Tag match with moving platforms enabled and `wplat` generated. -/
def wtagPlat : Tag.TagGame := Tag.init [wp1, wp2] wbounds 60 0 false true false false 1 [wplat]

/-- Fresh singleplayer Survival session (the `__init__` field values). -/
def wsurv : Survival.SurvivalGame :=
  { player := wp1, bounds := wbounds, elapsed := 0, is_over := false, hazards := [],
    timer_left := 0, timer_right := 0, timer_top := 0, timer_bottom := 0,
    spawn_interval := 1, min_spawn_interval := 3/10, base_speed := 150, max_speed := 380,
    side_cycle_idx := 0 }

/-- A finished Survival session. -/
def wsurvOver : Survival.SurvivalGame := { wsurv with is_over := true }

/-- A finished PvP Survival session. -/
def wpvpOver : SurvivalPvp.SurvivalPvpGame :=
  { players := [wp1, wp2], bounds := wbounds, elapsed := 5, is_over := true,
    alive := [(1, true), (2, false)], elim_time := [(1, 0), (2, 3)], hazards := [],
    timer_left := 0, timer_right := 0, timer_top := 0, timer_bottom := 0,
    spawn_interval := 1, min_spawn_interval := 3/10, base_speed := 150, max_speed := 380,
    side_cycle_idx := 7 }

/-- A finished Brick Breaker session. -/
def wbrickOver : BrickBreaker.BrickBreakerGame :=
  { bounds := wbounds, paddle := ⟨450, 980, 100, 12⟩, paddle_speed := 300,
    move_left := false, move_right := false, ball_size := 10, ball_x := 500,
    ball_y := 500, ball_vx := 120, ball_vy := -220, ball_speed := 260,
    prev_ball_x := 500, prev_ball_y := 500, bricks := [⟨20, 20, 94, 18⟩],
    score := 0, lives := 3, is_over := true, results_header := none }

/-! ## Helper lemmas -/

theorem setAt_length {α : Type} (l : List α) (i : ℕ) (f : α → α) :
    (setAt l i f).length = l.length := by
  induction l generalizing i with
  | nil => simp [setAt]
  | cons a l ih =>
    cases i with
    | zero => simp [setAt]
    | succ i => simp [setAt, ih]

theorem getElem?_setAt {α : Type} (l : List α) (i : ℕ) (f : α → α) (j : ℕ) :
    (setAt l i f)[j]? = if i = j then l[j]?.map f else l[j]? := by
  induction l generalizing i j with
  | nil => simp [setAt]
  | cons a l ih =>
    cases i with
    | zero =>
      cases j with
      | zero => simp [setAt]
      | succ j => simp [setAt]
    | succ i =>
      cases j with
      | zero => simp [setAt]
      | succ j => simpa [setAt, Nat.succ_inj] using ih i j

theorem firstIdx_spec {α : Type} {p : α → Bool} {l : List α} {i : ℕ}
    (h : firstIdx p l = some i) : ∃ x, l[i]? = some x ∧ p x = true := by
  induction l generalizing i with
  | nil => simp [firstIdx] at h
  | cons a l ih =>
    by_cases hp : p a
    · simp [firstIdx, hp] at h
      subst h
      exact ⟨a, by simp, hp⟩
    · simp [firstIdx, hp] at h
      obtain ⟨j, hj, rfl⟩ := h
      obtain ⟨x, hx, hpx⟩ := ih hj
      exact ⟨x, by simpa using hx, hpx⟩

theorem firstIdx_isSome_of_mem {α : Type} {p : α → Bool} {l : List α} {x : α}
    (hx : x ∈ l) (hp : p x = true) : (firstIdx p l).isSome := by
  induction l with
  | nil => simp at hx
  | cons a l ih =>
    rcases List.mem_cons.mp hx with rfl | hm
    · simp [firstIdx, hp]
    · by_cases hpa : p a
      · simp [firstIdx, hpa]
      · simp [firstIdx, hpa]
        exact ih hm

theorem firstIdx_lt_length {α : Type} {p : α → Bool} {l : List α} {i : ℕ}
    (h : firstIdx p l = some i) : i < l.length := by
  obtain ⟨x, hx, -⟩ := firstIdx_spec h
  exact (List.getElem?_eq_some.mp hx).1

theorem sum_map_setAt {α : Type} (g : α → ℚ) (l : List α) (i : ℕ) (f : α → α)
    {x : α} (hx : l[i]? = some x) :
    ((setAt l i f).map g).sum = (l.map g).sum + (g (f x) - g x) := by
  induction l generalizing i with
  | nil => simp at hx
  | cons a l ih =>
    cases i with
    | zero =>
      simp at hx
      subst hx
      simp [setAt]
      ring
    | succ i =>
      simp at hx
      have := ih i hx
      simp [setAt, this]
      ring

theorem foldl_preserve {α β : Type} {P : β → Prop} (f : β → α → β)
    (hf : ∀ b a, P b → P (f b a)) :
    ∀ (l : List α) (b : β), P b → P (l.foldl f b)
  | [], _, hb => hb
  | a :: l, b, hb => foldl_preserve f hf l (f b a) (hf b a hb)



namespace Tag

theorem metaEq_refl (a : PState) : metaEq a a := ⟨rfl, rfl, rfl⟩

theorem metaEq_trans {a b c : PState} (h1 : metaEq a b) (h2 : metaEq b c) :
    metaEq a c :=
  ⟨h1.1.trans h2.1, h1.2.1.trans h2.2.1, h1.2.2.trans h2.2.2⟩

theorem jumpInput_metaEq (platforms : List Platform) (ms : ℚ) (dx : ℤ)
    (jump down : Bool) (st : PState) :
    metaEq (jumpInput platforms ms dx jump down st) st := by
  unfold jumpInput metaEq
  dsimp only
  split_ifs <;> simp

theorem consumeJump_metaEq (js : ℚ) (st : PState) :
    metaEq (consumeJump js st) st := by
  unfold consumeJump metaEq
  split_ifs <;> simp

theorem applyGravity_metaEq (gr dt : ℚ) (st : PState) :
    metaEq (applyGravity gr dt st) st := by
  unfold applyGravity metaEq
  simp

theorem horizontalPhase_metaEq (bounds : Rect) (dt : ℚ) (st : PState) :
    metaEq (horizontalPhase bounds dt st) st := by
  unfold horizontalPhase metaEq
  dsimp only
  exact ⟨rfl, rfl, rfl⟩

theorem landOnPlatform_metaEq (ob mj : ℤ) (st : PState) (ip : ℕ × Platform) :
    metaEq (landOnPlatform ob mj st ip) st := by
  unfold landOnPlatform metaEq
  split_ifs <;> simp

theorem verticalCore_metaEq (bounds gr : Rect) (mj ob : ℤ) (dt : ℚ) (st : PState) :
    metaEq (verticalCore bounds gr mj ob dt st) st := by
  unfold verticalCore metaEq
  dsimp only
  split_ifs <;> simp

theorem verticalPhase_metaEq (bounds gr : Rect) (platforms : List Platform)
    (mj : ℤ) (dt : ℚ) (st : PState) :
    metaEq (verticalPhase bounds gr platforms mj dt st) st := by
  unfold verticalPhase
  dsimp only
  have hcore := verticalCore_metaEq bounds gr mj st.player.rect.bottom dt st
  have hfold : metaEq (platforms.enum.foldl
      (landOnPlatform st.player.rect.bottom mj)
      (verticalCore bounds gr mj st.player.rect.bottom dt st)) st := by
    refine foldl_preserve (P := fun b => metaEq b st) _ ?_ _ _ hcore
    intro b a hb
    exact metaEq_trans (landOnPlatform_metaEq _ _ _ _) hb
  split
  · exact metaEq_trans ⟨rfl, rfl, rfl⟩ hfold
  · exact hfold

theorem bufferAndRide_metaEq (platforms : List Platform) (dt : ℚ) (st : PState) :
    metaEq (bufferAndRide platforms dt st) st := by
  unfold bufferAndRide metaEq
  dsimp only
  (repeat' split) <;> simp

theorem physStep_metaEq (g : TagGame) (platforms : List Platform)
    (ih : InputHandler) (pressed : Option (List Bool)) (dt : ℚ) (st : PState) :
    metaEq (physStep g platforms ih pressed dt st) st := by
  unfold physStep
  dsimp only
  exact metaEq_trans (bufferAndRide_metaEq _ _ _)
    (metaEq_trans (verticalPhase_metaEq _ _ _ _ _ _)
      (metaEq_trans (horizontalPhase_metaEq _ _ _)
        (metaEq_trans (applyGravity_metaEq _ _ _)
          (metaEq_trans (consumeJump_metaEq _ _) (jumpInput_metaEq _ _ _ _ _ _)))))

end Tag

namespace Tag

theorem idsItEq_refl (l : List PState) : idsItEq l l := fun _ => rfl

theorem idsItEq_of_map {f : PState → PState}
    (hf : ∀ st, (f st).player.player_id = st.player.player_id ∧
      (f st).player.is_it = st.player.is_it) (l : List PState) :
    idsItEq (l.map f) l := by
  intro k
  rw [List.getElem?_map]
  cases h : l[k]? with
  | none => simp
  | some st => simp [(hf st).1, (hf st).2]

theorem idsItEq_setAt {f : PState → PState}
    (hf : ∀ st, (f st).player.player_id = st.player.player_id ∧
      (f st).player.is_it = st.player.is_it) (l : List PState) (i : ℕ) :
    idsItEq (setAt l i f) l := by
  intro k
  rw [getElem?_setAt]
  by_cases hik : i = k
  · simp only [hik, if_pos rfl]
    cases h : l[k]? with
    | none => simp
    | some st => simp [(hf st).1, (hf st).2]
  · simp [hik]

theorem idsItEq_isSome {l1 l2 : List PState} (h : idsItEq l1 l2) (k : ℕ) :
    l1[k]?.isSome = l2[k]?.isSome := by
  have hk := h k
  cases h1 : l1[k]? <;> cases h2 : l2[k]? <;> simp_all

theorem idsItEq_length {l1 l2 : List PState} (h : idsItEq l1 l2) :
    l1.length = l2.length := by
  by_contra hne
  rcases Nat.lt_or_ge l1.length l2.length with hlt | hge
  · have h1 : l1[l1.length]? = none := by simp
    have h2 : l2[l1.length]?.isSome := by
      rw [List.getElem?_eq_getElem hlt]
      rfl
    rw [← idsItEq_isSome h l1.length, h1] at h2
    simp at h2
  · have hlt : l2.length < l1.length := lt_of_le_of_ne hge (fun he => hne he.symm)
    have h1 : l2[l2.length]? = none := by simp
    have h2 : l1[l2.length]?.isSome := by
      rw [List.getElem?_eq_getElem hlt]
      rfl
    rw [idsItEq_isSome h l2.length, h1] at h2
    simp at h2

theorem idsItEq_fields {l1 l2 : List PState} (h : idsItEq l1 l2) {k : ℕ}
    {st : PState} (hst : l1[k]? = some st) :
    ∃ st2, l2[k]? = some st2 ∧ st.player.player_id = st2.player.player_id ∧
      st.player.is_it = st2.player.is_it := by
  have hk := h k
  rw [hst] at hk
  cases h2 : l2[k]? with
  | none => rw [h2] at hk; simp at hk
  | some st2 =>
    rw [h2] at hk
    simp at hk
    exact ⟨st2, rfl, hk.1, hk.2⟩

theorem distinct_ids_ne {l : List PState} (hd : distinctIds l) {i j : ℕ}
    (hij : i ≠ j) {a b : PState} (ha : l[i]? = some a) (hb : l[j]? = some b) :
    a.player.player_id ≠ b.player.player_id := by
  obtain ⟨hi, hia⟩ := List.getElem?_eq_some.mp ha
  obtain ⟨hj, hjb⟩ := List.getElem?_eq_some.mp hb
  rcases lt_or_gt_of_ne hij with hlt | hgt
  · have hp := List.pairwise_iff_getElem.mp hd i j hi hj hlt
    rw [hia, hjb] at hp
    exact hp
  · have hp := List.pairwise_iff_getElem.mp hd j i hj hi hgt
    rw [hia, hjb] at hp
    exact fun he => hp he.symm

theorem tagInvP_of_idsItEq {l1 l2 : List PState} {cur : ℤ}
    (h : idsItEq l1 l2) (hinv : tagInvP l2 cur) : tagInvP l1 cur := by
  obtain ⟨hd, ⟨stp, hstp, hstpid⟩, hcons⟩ := hinv
  refine ⟨?_, ?_, ?_⟩
  · rw [distinctIds, List.pairwise_iff_getElem]
    intro i j hi hj hij
    have hi' : l1[i]? = some l1[i] := by simp [hi]
    have hj' : l1[j]? = some l1[j] := by simp [hj]
    obtain ⟨a2, ha2, haid, -⟩ := idsItEq_fields h hi'
    obtain ⟨b2, hb2, hbid, -⟩ := idsItEq_fields h hj'
    rw [haid, hbid]
    exact distinct_ids_ne hd (Nat.ne_of_lt hij) ha2 hb2
  · obtain ⟨k, hk⟩ := List.mem_iff_getElem?.mp hstp
    have hk1 : l1[k]?.isSome := by
      rw [idsItEq_isSome h k, hk]
      rfl
    obtain ⟨st1, hst1⟩ := Option.isSome_iff_exists.mp hk1
    obtain ⟨st2, hst2, hid, -⟩ := idsItEq_fields h hst1
    rw [hk] at hst2
    cases hst2
    exact ⟨st1, List.getElem?_mem hst1, hid.trans hstpid⟩
  · intro st hst
    obtain ⟨k, hk⟩ := List.mem_iff_getElem?.mp hst
    obtain ⟨st2, hst2, hid, hit⟩ := idsItEq_fields h hk
    rw [hid, hit]
    exact hcons st2 (List.getElem?_mem hst2)

theorem findTagged_spec {itRect : Rect} {skip : ℕ} {l : List PState} {j : ℕ}
    (h : findTagged itRect skip l = some j) :
    j ≠ skip ∧ ∃ st, l[j]? = some st ∧ itRect.colliderect st.player.rect = true := by
  unfold findTagged at h
  obtain ⟨x, hx, hpx⟩ := firstIdx_spec h
  rw [List.getElem?_enum] at hx
  cases he : l[j]? with
  | none => rw [he] at hx; simp at hx
  | some st =>
    rw [he] at hx
    simp at hx
    rw [← hx] at hpx
    simp only [Bool.and_eq_true, decide_eq_true_eq] at hpx
    exact ⟨hpx.1, st, rfl, hpx.2⟩

theorem firstIdx_id_spec {l : List PState} {cur : ℤ} {i0 : ℕ}
    (h : firstIdx (fun st => st.player.player_id == cur) l = some i0) :
    ∃ st, l[i0]? = some st ∧ st.player.player_id = cur := by
  obtain ⟨st, hst, hpst⟩ := firstIdx_spec h
  exact ⟨st, hst, by simpa using hpst⟩

end Tag

namespace Tag

theorem distinctIds_of_ids_eq {l1 l2 : List PState}
    (h : ∀ m : ℕ, l1[m]?.map (fun st => st.player.player_id) =
      l2[m]?.map (fun st => st.player.player_id))
    (hd : distinctIds l2) : distinctIds l1 := by
  rw [distinctIds, List.pairwise_iff_getElem]
  intro i j hi hj hij
  have hi' : l1[i]? = some l1[i] := by simp [hi]
  have hj' : l1[j]? = some l1[j] := by simp [hj]
  have hmi := h i
  have hmj := h j
  rw [hi'] at hmi
  rw [hj'] at hmj
  cases h2i : l2[i]? with
  | none => rw [h2i] at hmi; simp at hmi
  | some a2 =>
    cases h2j : l2[j]? with
    | none => rw [h2j] at hmj; simp at hmj
    | some b2 =>
      rw [h2i] at hmi
      rw [h2j] at hmj
      simp at hmi hmj
      rw [hmi, hmj]
      exact distinct_ids_ne hd (Nat.ne_of_lt hij) h2i h2j

theorem transferPhase_cooldown_pos {players : List PState} {cur : ℤ} {dur : ℚ}
    {cd : ℚ} (h : 0 < cd) :
    transferPhase players cur cd dur =
      ⟨players, cur, cd, firstIdx (fun st => st.player.player_id == cur) players⟩ := by
  unfold transferPhase
  cases hfi : firstIdx (fun st => st.player.player_id == cur) players with
  | none => rfl
  | some i0 => simp [not_le.mpr h]


end Tag

namespace Tag

theorem transferPhase_char {players : List PState} {cur : ℤ} {cd dur : ℚ}
    (hinv : tagInvP players cur) :
    tagInvP (transferPhase players cur cd dur).players
        (transferPhase players cur cd dur).current_it_id ∧
      (transferPhase players cur cd dur).players.length = players.length ∧
      (∀ m : ℕ, ((transferPhase players cur cd dur).players[m]?).map
          (fun st => st.player.it_time) =
        (players[m]?).map (fun st => st.player.it_time)) ∧
      ∃ k : ℕ, (transferPhase players cur cd dur).it_idx = some k ∧
        k < players.length ∧
        ∃ st, (transferPhase players cur cd dur).players[k]? = some st ∧
          st.player.player_id = (transferPhase players cur cd dur).current_it_id := by
  obtain ⟨hd, hpres, hcons⟩ := hinv
  obtain ⟨stp, hmem, hid⟩ := hpres
  have hsome : (firstIdx (fun st => st.player.player_id == cur) players).isSome :=
    firstIdx_isSome_of_mem hmem (by simpa using hid)
  unfold transferPhase
  cases hfi : firstIdx (fun st => st.player.player_id == cur) players with
  | none => rw [hfi] at hsome; simp at hsome
  | some i0 =>
    dsimp only
    obtain ⟨st0, hst0, hst0id⟩ := firstIdx_id_spec hfi
    have hi0lt : i0 < players.length := firstIdx_lt_length hfi
    have hnochange : tagInvP players cur ∧ players.length = players.length ∧
        (∀ m : ℕ, (players[m]?).map (fun st => st.player.it_time) =
          (players[m]?).map (fun st => st.player.it_time)) ∧
        ∃ k : ℕ, (some i0 : Option ℕ) = some k ∧ k < players.length ∧
          ∃ st, players[k]? = some st ∧ st.player.player_id = cur :=
      ⟨⟨hd, ⟨stp, hmem, hid⟩, hcons⟩, rfl, fun _ => rfl,
        i0, rfl, hi0lt, st0, hst0, hst0id⟩
    by_cases hcd : cd ≤ 0
    · rw [if_pos hcd]
      cases hft : findTagged (rectAt players i0) i0 players with
      | none => exact hnochange
      | some j =>
        dsimp only
        obtain ⟨hji0, stj, hstj, hcol⟩ := findTagged_spec hft
        have hjlt : j < players.length := (List.getElem?_eq_some.mp hstj).1
        have hidat : idAt players j = stj.player.player_id := by
          unfold idAt
          rw [hstj]
        have hL2 : ∀ m : ℕ, (setAt (setAt players i0 clearIt) j setIt)[m]? =
            if j = m then (players[m]?).map setIt
            else if i0 = m then (players[m]?).map clearIt
            else players[m]? := by
          intro m
          rw [getElem?_setAt, getElem?_setAt]
          by_cases hjm : j = m
          · rw [if_pos hjm, if_pos hjm, if_neg (fun he : i0 = m => hji0 (hjm.trans he.symm))]
          · rw [if_neg hjm, if_neg hjm]
        have hL2j : (setAt (setAt players i0 clearIt) j setIt)[j]? = some (setIt stj) := by
          rw [hL2 j, if_pos rfl, hstj]
          rfl
        have hids : ∀ m : ℕ, ((setAt (setAt players i0 clearIt) j setIt)[m]?).map
            (fun st => st.player.player_id) =
            (players[m]?).map (fun st => st.player.player_id) := by
          intro m
          rw [hL2 m]
          by_cases hjm : j = m
          · rw [if_pos hjm]
            cases players[m]? <;> rfl
          · rw [if_neg hjm]
            by_cases him : i0 = m
            · rw [if_pos him]
              cases players[m]? <;> rfl
            · rw [if_neg him]
        have hne0j : st0.player.player_id ≠ stj.player.player_id :=
          distinct_ids_ne hd (fun he : i0 = j => hji0 he.symm) hst0 hstj
        refine ⟨⟨distinctIds_of_ids_eq hids hd, ?_, ?_⟩, ?_, ?_, ?_⟩
        · refine ⟨setIt stj, List.getElem?_mem hL2j, ?_⟩
          show stj.player.player_id = idAt players j
          rw [hidat]
        · intro st hst
          obtain ⟨m, hm⟩ := List.mem_iff_getElem?.mp hst
          rw [hL2 m] at hm
          by_cases hjm : j = m
          · rw [if_pos hjm] at hm
            rw [← hjm, hstj] at hm
            simp at hm
            subst hm
            show true = true ↔ stj.player.player_id = idAt players j
            rw [hidat]
            simp
          · rw [if_neg hjm] at hm
            by_cases him : i0 = m
            · rw [if_pos him] at hm
              rw [← him, hst0] at hm
              simp at hm
              subst hm
              show false = true ↔ st0.player.player_id = idAt players j
              rw [hidat]
              exact iff_of_false Bool.false_ne_true hne0j
            · rw [if_neg him] at hm
              have hne_j : st.player.player_id ≠ stj.player.player_id :=
                distinct_ids_ne hd (fun he : m = j => hjm he.symm) hm hstj
              have hne_0 : st.player.player_id ≠ st0.player.player_id :=
                distinct_ids_ne hd (fun he : m = i0 => him he.symm) hm hst0
              have hnotit : st.player.is_it = false := by
                cases hit : st.player.is_it with
                | false => rfl
                | true =>
                  have hcur := (hcons st (List.getElem?_mem hm)).mp hit
                  exact absurd (hcur.trans hst0id.symm) hne_0
              rw [hnotit, hidat]
              exact iff_of_false Bool.false_ne_true hne_j
        · rw [setAt_length, setAt_length]
        · intro m
          rw [hL2 m]
          by_cases hjm : j = m
          · rw [if_pos hjm]
            cases players[m]? <;> rfl
          · rw [if_neg hjm]
            by_cases him : i0 = m
            · rw [if_pos him]
              cases players[m]? <;> rfl
            · rw [if_neg him]
        · refine ⟨j, rfl, hjlt, setIt stj, hL2j, ?_⟩
          show stj.player.player_id = idAt players j
          rw [hidat]
    · rw [if_neg hcd]
      exact hnochange

end Tag

namespace Tag

theorem idsItEq_trans {l1 l2 l3 : List PState} (h1 : idsItEq l1 l2)
    (h2 : idsItEq l2 l3) : idsItEq l1 l3 :=
  fun k => (h1 k).trans (h2 k)

theorem accruePhase_idsItEq (l : List PState) (oi : Option ℕ) (dt : ℚ) :
    idsItEq (accruePhase l oi dt) l := by
  cases oi with
  | none => exact idsItEq_refl l
  | some k =>
    show idsItEq (setAt l k (addItTime dt)) l
    exact idsItEq_setAt (f := addItTime dt) (fun st => ⟨rfl, rfl⟩) l k

theorem idsItEq_map_isIt {l1 l2 : List PState} (h : idsItEq l1 l2) :
    l1.map (fun st => st.player.is_it) = l2.map (fun st => st.player.is_it) := by
  apply List.ext_getElem?
  intro n
  rw [List.getElem?_map, List.getElem?_map]
  have hk := h n
  cases h1 : l1[n]? <;> cases h2 : l2[n]? <;> simp_all

theorem tagInv_eq_P (g : TagGame) : tagInv g ↔ tagInvP g.players g.current_it_id :=
  Iff.rfl

theorem physStep_map_idsItEq (g : TagGame) (platforms : List Platform)
    (ih : InputHandler) (pressed : Option (List Bool)) (dt : ℚ) (l : List PState) :
    idsItEq (l.map (physStep g platforms ih pressed dt)) l :=
  idsItEq_of_map
    (fun st => ⟨(physStep_metaEq g platforms ih pressed dt st).1,
      (physStep_metaEq g platforms ih pressed dt st).2.1⟩) l

theorem update_inv {g : TagGame} (ih : InputHandler) (pressed : Option (List Bool))
    (dt : ℚ) (hinv : tagInv g) : tagInv (update g ih pressed dt) := by
  unfold update
  by_cases hov : g.is_over
  · rw [if_pos hov]
    exact hinv
  · rw [if_neg hov]
    dsimp only
    by_cases hrem : g.remaining - dt ≤ 0
    · rw [if_pos hrem]
      exact hinv
    · rw [if_neg hrem]
      have h1 := physStep_map_idsItEq g (g.platforms.map (movePlatform dt)) ih pressed dt g.players
      have hinv1 : tagInvP (g.players.map (physStep g (g.platforms.map (movePlatform dt)) ih pressed dt)) g.current_it_id :=
        tagInvP_of_idsItEq h1 ((tagInv_eq_P g).mp hinv)
      have hchar := @transferPhase_char _ _
        (if 0 < g.tag_cooldown then max 0 (g.tag_cooldown - dt) else g.tag_cooldown)
        g.tag_cooldown_duration hinv1
      exact (tagInv_eq_P _).mpr
        (tagInvP_of_idsItEq (accruePhase_idsItEq _ _ _) hchar.1)

end Tag

namespace Tag

theorem countP_isIt_of_inv : ∀ {l : List PState} {cur : ℤ}, tagInvP l cur →
    l.countP (fun st => st.player.is_it) = 1 := by
  intro l
  induction l with
  | nil =>
    intro cur h
    obtain ⟨-, ⟨stp, hmem, -⟩, -⟩ := h
    simp at hmem
  | cons a t ih =>
    intro cur h
    obtain ⟨hd, ⟨stp, hmem, hid⟩, hcons⟩ := h
    have hdt : distinctIds t := (List.pairwise_cons.mp hd).2
    have hdh : ∀ x ∈ t, a.player.player_id ≠ x.player.player_id :=
      (List.pairwise_cons.mp hd).1
    by_cases hacur : a.player.player_id = cur
    · have hpa : a.player.is_it = true := (hcons a (by simp)).mpr hacur
      have hzero : t.countP (fun st => st.player.is_it) = 0 := by
        rw [List.countP_eq_zero]
        intro x hx hxit
        have hxcur := (hcons x (List.mem_cons_of_mem a hx)).mp (by simpa using hxit)
        exact hdh x hx (hacur.trans hxcur.symm)
      rw [List.countP_cons, hzero, hpa]
      simp
    · have hpa : a.player.is_it = false := by
        cases hit : a.player.is_it with
        | false => rfl
        | true => exact absurd ((hcons a (by simp)).mp hit) hacur
      have hstp : stp ∈ t := by
        rcases List.mem_cons.mp hmem with rfl | hmt
        · exact absurd hid hacur
        · exact hmt
      have hrec := ih ⟨hdt, ⟨stp, hstp, hid⟩,
        fun st hst => hcons st (List.mem_cons_of_mem a hst)⟩
      rw [List.countP_cons, hrec, hpa]
      simp

end Tag

/-- **C1.** For every Tag session built from a non-empty roster with
distinct player ids, at every instant of an active match — after
construction, after `reset`, and after every `update` — exactly one
player has `is_it = true`, and it is the player whose `player_id`
equals `current_it_id`: construction and reset establish the invariant
`tagInv`, `update` preserves it, and `tagInv` implies both the count
of IT holders is one and the holder matches `current_it_id`. -/
theorem tag_exactly_one_it :
    (∀ (roster : List Player) (bounds : Rect) (mt : ℚ) (mi : ℤ) (dj mv dr sp : Bool)
        (chosen : ℤ) (plats : List Tag.Platform),
        roster.Pairwise (fun a b => a.player_id ≠ b.player_id) →
        (∃ p ∈ roster, p.player_id = chosen) →
        Tag.tagInv (Tag.init roster bounds mt mi dj mv dr sp chosen plats)) ∧
    (∀ (g : Tag.TagGame) (chosen : ℤ) (plats : List Tag.Platform),
        Tag.distinctIds g.players →
        (∃ st ∈ g.players, st.player.player_id = chosen) →
        Tag.tagInv (Tag.reset g chosen plats)) ∧
    (∀ (g : Tag.TagGame) (ih : InputHandler) (pressed : Option (List Bool)) (dt : ℚ),
        Tag.tagInv g → Tag.tagInv (Tag.update g ih pressed dt)) ∧
    (∀ g : Tag.TagGame, Tag.tagInv g →
      g.players.countP (fun st => st.player.is_it) = 1 ∧
        ∀ st ∈ g.players, (st.player.is_it = true ↔ st.player.player_id = g.current_it_id)) := by
  refine ⟨?_, ?_, ?_, ?_⟩
  · intro roster bounds mt mi dj mv dr sp chosen plats hpw hch
    obtain ⟨p0, hp0, hp0id⟩ := hch
    unfold Tag.init Tag.tagInv Tag.distinctIds Tag.itPresent Tag.itConsistent
    dsimp only
    refine ⟨?_, ?_, ?_⟩
    · rw [List.pairwise_map]
      exact hpw
    · refine ⟨_, List.mem_map_of_mem _ hp0, ?_⟩
      dsimp only
      exact hp0id
    · intro st hst
      obtain ⟨p, hp, rfl⟩ := List.mem_map.mp hst
      dsimp only
      exact decide_eq_true_iff
  · intro g chosen plats hdist hch
    obtain ⟨st0, hst0, hst0id⟩ := hch
    obtain ⟨k0, hk0⟩ := List.mem_iff_getElem?.mp hst0
    unfold Tag.reset Tag.tagInv Tag.distinctIds Tag.itPresent Tag.itConsistent
    dsimp only
    refine ⟨?_, ?_, ?_⟩
    · rw [List.mapIdx_eq_enum_map, List.pairwise_map, List.pairwise_iff_getElem]
      intro i j hi hj hij
      have hi' : i < g.players.length := by
        simpa [List.enum_length] using hi
      have hj' : j < g.players.length := by
        simpa [List.enum_length] using hj
      rw [List.getElem_enum, List.getElem_enum]
      dsimp only [Function.uncurry]
      have hgi : g.players[i]? = some g.players[i] := by simp [hi']
      have hgj : g.players[j]? = some g.players[j] := by simp [hj']
      exact Tag.distinct_ids_ne hdist (Nat.ne_of_lt hij) hgi hgj
    · rw [List.mapIdx_eq_enum_map]
      have henum : g.players.enum[k0]? = some (k0, st0) := by
        rw [List.getElem?_enum, hk0]
        rfl
      refine ⟨_, List.mem_map_of_mem _ (List.getElem?_mem henum), ?_⟩
      dsimp only [Function.uncurry]
      exact hst0id
    · intro st hst
      rw [List.mapIdx_eq_enum_map] at hst
      obtain ⟨⟨i, p⟩, hmem, rfl⟩ := List.mem_map.mp hst
      dsimp only [Function.uncurry]
      exact decide_eq_true_iff
  · intro g ih pressed dt hinv
    exact Tag.update_inv ih pressed dt hinv
  · intro g hinv
    exact ⟨Tag.countP_isIt_of_inv hinv, hinv.2.2⟩

/-- Witness for **C1** at a concrete two-player roster: construction,
reset and one update of the concrete session `wtag60`, plus the
exactly-one-IT count. -/
theorem tag_exactly_one_it_witness :
    Tag.tagInv (Tag.init [wp1, wp2] wbounds 60 0 false false false false 1 []) ∧
    Tag.tagInv (Tag.reset wtag60 2 []) ∧
    Tag.tagInv (Tag.update wtag60 ihEmpty none 1) ∧
    wtag60.players.countP (fun st => st.player.is_it) = 1 := by
  have hinv60 : Tag.tagInv wtag60 := by decide
  refine ⟨?_, ?_, ?_, ?_⟩
  · exact tag_exactly_one_it.1 [wp1, wp2] wbounds 60 0 false false false false 1 []
      (by decide) ⟨wp1, by decide, by decide⟩
  · exact tag_exactly_one_it.2.1 wtag60 2 [] (by decide) ⟨wtag60.players.get ⟨1, by decide⟩, by decide, by decide⟩
  · exact tag_exactly_one_it.2.2.1 wtag60 ihEmpty none 1 hinv60
  · exact (tag_exactly_one_it.2.2.2 wtag60 hinv60).1

/-- **C7.** For every game session (Tag, Survival singleplayer and
PvP, Brick Breaker): if `is_over` is true when `update` is called, the
call returns without modifying any session or player state — the
resulting state equals the input state in every field. -/
theorem update_noop_when_over :
    (∀ (g : Tag.TagGame) (ih : InputHandler) (pressed : Option (List Bool)) (dt : ℚ),
      g.is_over = true → Tag.update g ih pressed dt = g) ∧
    (∀ (g : Survival.SurvivalGame) (dt : ℚ) (ih : InputHandler)
        (pressed : Option (List Bool)) (rng : ℕ → ℤ),
      g.is_over = true → Survival.update g dt ih pressed rng = g) ∧
    (∀ (g : SurvivalPvp.SurvivalPvpGame) (dt : ℚ) (ih : InputHandler)
        (pressed : Option (List Bool)) (rng : ℕ → ℤ),
      g.is_over = true → SurvivalPvp.update g dt ih pressed rng = g) ∧
    (∀ (g : BrickBreaker.BrickBreakerGame) (dt : ℚ) (sqrtQ : ℚ → ℚ) (vx_draw : ℚ),
      g.is_over = true → BrickBreaker.update g dt sqrtQ vx_draw = g) := by
  refine ⟨?_, ?_, ?_, ?_⟩
  · intro g ih pressed dt h
    unfold Tag.update
    rw [if_pos (by rw [h] : g.is_over = true)]
  · intro g dt ih pressed rng h
    unfold Survival.update
    rw [if_pos (by rw [h] : g.is_over = true)]
  · intro g dt ih pressed rng h
    unfold SurvivalPvp.update
    rw [if_pos (by rw [h] : g.is_over = true)]
  · intro g dt sq vd h
    unfold BrickBreaker.update
    rw [if_pos (by rw [h] : g.is_over = true)]

/-- Witness for **C7**: finished concrete sessions of all four games
are left exactly unchanged by one further update. -/
theorem update_noop_when_over_witness :
    Tag.update wtagOver ihEmpty none 1 = wtagOver ∧
    Survival.update wsurvOver 1 ihEmpty none (fun _ => 0) = wsurvOver ∧
    SurvivalPvp.update wpvpOver 1 ihEmpty none (fun _ => 0) = wpvpOver ∧
    BrickBreaker.update wbrickOver 1 (fun q => q) 120 = wbrickOver :=
  ⟨update_noop_when_over.1 wtagOver ihEmpty none 1 rfl,
    update_noop_when_over.2.1 wsurvOver 1 ihEmpty none (fun _ => 0) rfl,
    update_noop_when_over.2.2.1 wpvpOver 1 ihEmpty none (fun _ => 0) rfl,
    update_noop_when_over.2.2.2 wbrickOver 1 (fun q => q) 120 rfl⟩

/-- **C6.** With the Survival difficulty fields as initialised
(`spawn_interval = 1`, `min_spawn_interval = 0.30`, `base_speed = 150`,
`max_speed = 380` — the only values ever assigned), the spawn interval
is non-increasing and the hazard speed non-decreasing in elapsed time,
the interval never drops below 0.30 s, and the speed never exceeds
380 px/s; in both the singleplayer and the PvP variant. -/
theorem survival_difficulty_monotone :
    (∀ g : Survival.SurvivalGame, g.spawn_interval = 1 → g.min_spawn_interval = 3/10 →
      g.base_speed = 150 → g.max_speed = 380 →
      (∀ t1 t2 : ℚ, t1 ≤ t2 →
        (Survival.difficulty { g with elapsed := t2 }).spawn_interval ≤
          (Survival.difficulty { g with elapsed := t1 }).spawn_interval ∧
        (Survival.difficulty { g with elapsed := t1 }).speed ≤
          (Survival.difficulty { g with elapsed := t2 }).speed) ∧
      (∀ t : ℚ, 3/10 ≤ (Survival.difficulty { g with elapsed := t }).spawn_interval ∧
        (Survival.difficulty { g with elapsed := t }).speed ≤ 380)) ∧
    (∀ g : SurvivalPvp.SurvivalPvpGame, g.spawn_interval = 1 → g.min_spawn_interval = 3/10 →
      g.base_speed = 150 → g.max_speed = 380 →
      (∀ t1 t2 : ℚ, t1 ≤ t2 →
        (SurvivalPvp.difficulty { g with elapsed := t2 }).spawn_interval ≤
          (SurvivalPvp.difficulty { g with elapsed := t1 }).spawn_interval ∧
        (SurvivalPvp.difficulty { g with elapsed := t1 }).speed ≤
          (SurvivalPvp.difficulty { g with elapsed := t2 }).speed) ∧
      (∀ t : ℚ, 3/10 ≤ (SurvivalPvp.difficulty { g with elapsed := t }).spawn_interval ∧
        (SurvivalPvp.difficulty { g with elapsed := t }).speed ≤ 380)) := by
  constructor
  · intro g h1 h2 h3 h4
    unfold Survival.difficulty
    dsimp only
    rw [h1, h2, h3, h4]
    constructor
    · intro t1 t2 ht
      have hu : min (t1 / 45) 1 ≤ min (t2 / 45) 1 :=
        min_le_min (by linarith) le_rfl
      constructor
      · exact max_le_max le_rfl (by nlinarith)
      · exact min_le_min le_rfl (by nlinarith)
    · intro t
      exact ⟨le_max_left _ _, min_le_left _ _⟩
  · intro g h1 h2 h3 h4
    unfold SurvivalPvp.difficulty
    dsimp only
    rw [h1, h2, h3, h4]
    constructor
    · intro t1 t2 ht
      have hu : min (t1 / 45) 1 ≤ min (t2 / 45) 1 :=
        min_le_min (by linarith) le_rfl
      constructor
      · exact max_le_max le_rfl (by nlinarith)
      · exact min_le_min le_rfl (by nlinarith)
    · intro t
      exact ⟨le_max_left _ _, min_le_left _ _⟩

/-- Witness for **C6** on the freshly constructed session `wsurv` (and
its PvP counterpart `wpvpOver`'s field values) at `t1 = 10 ≤ t2 = 20`. -/
theorem survival_difficulty_monotone_witness :
    ((Survival.difficulty { wsurv with elapsed := 20 }).spawn_interval ≤
      (Survival.difficulty { wsurv with elapsed := 10 }).spawn_interval) ∧
    ((SurvivalPvp.difficulty { wpvpOver with elapsed := 10 }).speed ≤
      (SurvivalPvp.difficulty { wpvpOver with elapsed := 20 }).speed) ∧
    (3/10 ≤ (Survival.difficulty { wsurv with elapsed := 50 }).spawn_interval) :=
  ⟨((survival_difficulty_monotone.1 wsurv rfl rfl rfl rfl).1 10 20 (by norm_num)).1,
    ((survival_difficulty_monotone.2 wpvpOver rfl rfl rfl rfl).1 10 20 (by norm_num)).2,
    ((survival_difficulty_monotone.1 wsurv rfl rfl rfl rfl).2 50).1⟩

namespace TrailLock

theorem shrinkLoop_floor (arena : Rect) (acc : ℚ)
    (h : arena.w ≤ 120 ∨ arena.h ≤ 120) :
    shrinkLoop arena acc = (arena, acc) := by
  rw [shrinkLoop]
  rw [dif_neg]
  rintro ⟨-, hw, hh⟩
  rcases h with h | h
  · omega
  · omega

theorem shrinkLoop_char (arena : Rect) (acc : ℚ) : 0 ≤ acc →
    ∃ k : ℕ,
      (shrinkLoop arena acc).1.x = arena.x + k ∧
      (shrinkLoop arena acc).1.y = arena.y + k ∧
      (shrinkLoop arena acc).1.w = arena.w - 2 * k ∧
      (shrinkLoop arena acc).1.h = arena.h - 2 * k ∧
      (shrinkLoop arena acc).2 = acc - k ∧
      0 ≤ (shrinkLoop arena acc).2 ∧
      (120 < (shrinkLoop arena acc).1.w ∧ 120 < (shrinkLoop arena acc).1.h →
        (shrinkLoop arena acc).2 < 1) ∧
      min arena.w 119 ≤ (shrinkLoop arena acc).1.w ∧
      min arena.h 119 ≤ (shrinkLoop arena acc).1.h := by
  induction arena, acc using shrinkLoop.induct with
  | case1 a acc hcond ih =>
    intro hpos
    have hsh : a.inflate (-2) (-2) = ⟨a.x + 1, a.y + 1, a.w - 2, a.h - 2⟩ := by
      unfold Rect.inflate pyFloorDiv
      have hd2 : Int.fdiv (-2) 2 = -1 := by decide
      rw [hd2]
      congr 1
    rw [shrinkLoop, dif_pos hcond, hsh]
    obtain ⟨k, hx, hy, hw, hh, hacc, hnn, hlt, hfw, hfh⟩ := ih (by linarith [hcond.1])
    rw [hsh] at hx hy hw hh hacc hnn hlt hfw hfh
    refine ⟨k + 1, ?_, ?_, ?_, ?_, ?_, hnn, hlt, ?_, ?_⟩
    · rw [hx]; dsimp only; push_cast; ring
    · rw [hy]; dsimp only; push_cast; ring
    · rw [hw]; dsimp only; push_cast; ring
    · rw [hh]; dsimp only; push_cast; ring
    · rw [hacc]; push_cast; ring
    · have h121 : 121 ≤ a.w := hcond.2.1
      have : min ((⟨a.x + 1, a.y + 1, a.w - 2, a.h - 2⟩ : Rect).w) 119 =
          min (a.w - 2) 119 := rfl
      rw [this] at hfw
      have hm1 : min a.w 119 = 119 := min_eq_right (by omega)
      rw [hm1]
      have hm2 : min (a.w - 2) 119 = 119 := min_eq_right (by omega)
      rw [hm2] at hfw
      exact hfw
    · have h121 : 121 ≤ a.h := hcond.2.2
      have hfh' : min (a.h - 2) 119 ≤ (shrinkLoop ⟨a.x + 1, a.y + 1, a.w - 2, a.h - 2⟩ (acc - 1)).1.h := hfh
      have hm1 : min a.h 119 = 119 := min_eq_right (by omega)
      rw [hm1]
      have hm2 : min (a.h - 2) 119 = 119 := min_eq_right (by omega)
      rw [hm2] at hfh'
      exact hfh'
  | case2 a acc hcond =>
    intro hpos
    rw [shrinkLoop, dif_neg hcond]
    refine ⟨0, by simp, by simp, by simp, by simp, by simp, hpos, ?_,
      min_le_left _ _, min_le_left _ _⟩
    intro ⟨hw, hh⟩
    by_contra hge
    exact hcond ⟨by linarith, hw, hh⟩

end TrailLock

/-- **C8.** The TrailLock arena shrink (lines 144-148 of `update`)
contracts the arena at `shrink_rate` pixels per side per second via
fractional accumulation: over one step exactly `k` whole pixels are
removed from each side (symmetrically: both `x` and `y` advance by
`k`, width and height drop by `2k`), the accumulator keeps the exact
remainder `accum + rate·dt − k` (non-negative, and below one whole
pixel whenever the floor is not binding, so the long-run rate is exact
despite per-frame integer rounding); and shrinking halts at the
minimum-size floor: width and height never drop below
`min (initial, 119)`, and a step on an arena already at or below the
120 px floor leaves the rectangle unchanged. -/
theorem traillock_shrink_exact_and_floor :
    ∀ (arena : Rect) (accum rate dt : ℚ), 0 ≤ accum → 0 ≤ rate → 0 ≤ dt →
      ((arena.w ≤ 120 ∨ arena.h ≤ 120) →
        TrailLock.shrink_step arena accum rate dt = (arena, accum + rate * dt)) ∧
      ∃ k : ℕ,
        (TrailLock.shrink_step arena accum rate dt).1.x = arena.x + k ∧
        (TrailLock.shrink_step arena accum rate dt).1.y = arena.y + k ∧
        (TrailLock.shrink_step arena accum rate dt).1.w = arena.w - 2 * k ∧
        (TrailLock.shrink_step arena accum rate dt).1.h = arena.h - 2 * k ∧
        (TrailLock.shrink_step arena accum rate dt).2 = accum + rate * dt - k ∧
        0 ≤ (TrailLock.shrink_step arena accum rate dt).2 ∧
        (120 < (TrailLock.shrink_step arena accum rate dt).1.w ∧
            120 < (TrailLock.shrink_step arena accum rate dt).1.h →
          (TrailLock.shrink_step arena accum rate dt).2 < 1) ∧
        min arena.w 119 ≤ (TrailLock.shrink_step arena accum rate dt).1.w ∧
        min arena.h 119 ≤ (TrailLock.shrink_step arena accum rate dt).1.h := by
  intro arena accum rate dt hacc hrate hdt
  constructor
  · intro hfloor
    exact TrailLock.shrinkLoop_floor arena _ hfloor
  · exact TrailLock.shrinkLoop_char arena (accum + rate * dt)
      (by nlinarith)

/-- Witness for **C8**: a 200 x 200 arena with accumulator 0, rate 1
and `dt = 2.5` s. -/
theorem traillock_shrink_exact_and_floor_witness :
    ∃ k : ℕ,
      (TrailLock.shrink_step ⟨0, 0, 200, 200⟩ 0 1 (5/2)).1.x = (0 : ℤ) + k ∧
      (TrailLock.shrink_step ⟨0, 0, 200, 200⟩ 0 1 (5/2)).1.y = (0 : ℤ) + k ∧
      (TrailLock.shrink_step ⟨0, 0, 200, 200⟩ 0 1 (5/2)).1.w = (200 : ℤ) - 2 * k ∧
      (TrailLock.shrink_step ⟨0, 0, 200, 200⟩ 0 1 (5/2)).1.h = (200 : ℤ) - 2 * k ∧
      (TrailLock.shrink_step ⟨0, 0, 200, 200⟩ 0 1 (5/2)).2 = 0 + 1 * (5/2) - k ∧
      0 ≤ (TrailLock.shrink_step ⟨0, 0, 200, 200⟩ 0 1 (5/2)).2 ∧
      (120 < (TrailLock.shrink_step ⟨0, 0, 200, 200⟩ 0 1 (5/2)).1.w ∧
          120 < (TrailLock.shrink_step ⟨0, 0, 200, 200⟩ 0 1 (5/2)).1.h →
        (TrailLock.shrink_step ⟨0, 0, 200, 200⟩ 0 1 (5/2)).2 < 1) ∧
      min (200 : ℤ) 119 ≤ (TrailLock.shrink_step ⟨0, 0, 200, 200⟩ 0 1 (5/2)).1.w ∧
      min (200 : ℤ) 119 ≤ (TrailLock.shrink_step ⟨0, 0, 200, 200⟩ 0 1 (5/2)).1.h :=
  (traillock_shrink_exact_and_floor ⟨0, 0, 200, 200⟩ 0 1 (5/2) (by norm_num)
    (by norm_num) (by norm_num)).2

/-- **C9.** An input action with no bound key (sentinel `-1`, covering
both an absent binding and an absent per-player mapping) behaves
exactly as a key that is never pressed: `is_action_pressed` returns
`false`; `get_axes` is exactly the sum of the per-action pressed
indicators, so an unmapped action contributes 0 to the axes; and
`get_direction` is the diagonal normalisation of those axes. No error
path exists (all functions are total). -/
theorem unmapped_action_no_op :
    (∀ (ih : InputHandler) (pid : ℤ) (action : String) (pressed : Option (List Bool)),
      dictGet (dictGet ih.mappings pid []) action (-1) = -1 →
      ih.is_action_pressed pid action pressed = false) ∧
    (∀ (ih : InputHandler) (pid : ℤ) (pressed : Option (List Bool)),
      ih.get_axes pid pressed =
        ((if ih.is_action_pressed pid actRight pressed then 1 else 0) -
            (if ih.is_action_pressed pid actLeft pressed then 1 else 0),
          (if ih.is_action_pressed pid actDown pressed then 1 else 0) -
            (if ih.is_action_pressed pid actUp pressed then 1 else 0))) ∧
    (∀ (ih : InputHandler) (pid : ℤ) (pressed : Option (List Bool)),
      ih.get_direction pid pressed =
        (if (ih.get_axes pid pressed).1 ≠ 0 ∧ (ih.get_axes pid pressed).2 ≠ 0 then
          (((ih.get_axes pid pressed).1 : ℚ) * InputHandler.diagFactor,
            ((ih.get_axes pid pressed).2 : ℚ) * InputHandler.diagFactor)
        else (((ih.get_axes pid pressed).1 : ℚ), ((ih.get_axes pid pressed).2 : ℚ)))) := by
  refine ⟨?_, ?_, ?_⟩
  · intro ih pid action pressed h
    unfold InputHandler.is_action_pressed
    dsimp only
    rw [h]
    cases pressed <;> simp
  · intro ih pid pressed
    unfold InputHandler.get_axes InputHandler.is_action_pressed
    cases pressed with
    | none =>
      dsimp only
      split_ifs <;> simp
    | some pr =>
      dsimp only
      split_ifs <;> simp
  · intro ih pid pressed
    unfold InputHandler.get_direction InputHandler.get_axes
    cases pressed <;> rfl

/-- Witness for **C9**: with `wihLeftOnly` only `left` is bound for
player 1, so the unmapped `up` action reads as not pressed. -/
theorem unmapped_action_no_op_witness :
    InputHandler.is_action_pressed wihLeftOnly 1 actUp none = false ∧
    InputHandler.get_axes wihLeftOnly 1 none =
      ((if InputHandler.is_action_pressed wihLeftOnly 1 actRight none then 1 else 0) -
          (if InputHandler.is_action_pressed wihLeftOnly 1 actLeft none then 1 else 0),
        (if InputHandler.is_action_pressed wihLeftOnly 1 actDown none then 1 else 0) -
          (if InputHandler.is_action_pressed wihLeftOnly 1 actUp none then 1 else 0)) :=
  ⟨unmapped_action_no_op.1 wihLeftOnly 1 actUp none (by decide),
    unmapped_action_no_op.2.1 wihLeftOnly 1 none⟩

/-- **C10.** For every hazard emitted by the Survival spawn operation
(both variants), in an arena at least 80 px wide and tall (so the
`random.randint` placement range `drawLo..drawHi` is non-empty) and
with the placement draw in that range: the hazard's box lies entirely
outside the arena (`colliderect` with the bounds is false), offset
exactly 12 px beyond the chosen edge, and its velocity has exactly one
nonzero component whose magnitude is the current difficulty speed
(positive, since `elapsed ≥ 0`) and whose sign points from the chosen
edge toward the arena interior. -/
theorem survival_spawn_outside :
    (∀ (g : Survival.SurvivalGame) (side : Survival.Side) (r : ℤ),
      g.base_speed = 150 → g.max_speed = 380 → 0 ≤ g.elapsed →
      80 ≤ g.bounds.w → 80 ≤ g.bounds.h →
      Survival.drawLo g.bounds side ≤ r → r ≤ Survival.drawHi g.bounds side →
      Survival.drawLo g.bounds side ≤ Survival.drawHi g.bounds side ∧
      0 < (Survival.difficulty g).speed ∧
      (Survival.spawn_hazard g.bounds side (Survival.difficulty g).speed r).1.colliderect
          g.bounds = false ∧
      (match side with
       | Survival.Side.left =>
         (Survival.spawn_hazard g.bounds side (Survival.difficulty g).speed r).1.right + 12 =
             g.bounds.left ∧
           (Survival.spawn_hazard g.bounds side (Survival.difficulty g).speed r).2 =
             ((Survival.difficulty g).speed, 0)
       | Survival.Side.right =>
         g.bounds.right + 12 =
             (Survival.spawn_hazard g.bounds side (Survival.difficulty g).speed r).1.left ∧
           (Survival.spawn_hazard g.bounds side (Survival.difficulty g).speed r).2 =
             (-(Survival.difficulty g).speed, 0)
       | Survival.Side.top =>
         (Survival.spawn_hazard g.bounds side (Survival.difficulty g).speed r).1.bottom + 12 =
             g.bounds.top ∧
           (Survival.spawn_hazard g.bounds side (Survival.difficulty g).speed r).2 =
             (0, (Survival.difficulty g).speed)
       | Survival.Side.bottom =>
         g.bounds.bottom + 12 =
             (Survival.spawn_hazard g.bounds side (Survival.difficulty g).speed r).1.top ∧
           (Survival.spawn_hazard g.bounds side (Survival.difficulty g).speed r).2 =
             (0, -(Survival.difficulty g).speed))) ∧
    (∀ (g : SurvivalPvp.SurvivalPvpGame) (side : Survival.Side) (r : ℤ),
      g.base_speed = 150 → g.max_speed = 380 → 0 ≤ g.elapsed →
      80 ≤ g.bounds.w → 80 ≤ g.bounds.h →
      Survival.drawLo g.bounds side ≤ r → r ≤ Survival.drawHi g.bounds side →
      Survival.drawLo g.bounds side ≤ Survival.drawHi g.bounds side ∧
      0 < (SurvivalPvp.difficulty g).speed ∧
      (SurvivalPvp.spawn_hazard g.bounds side (SurvivalPvp.difficulty g).speed r).1.colliderect
          g.bounds = false ∧
      (match side with
       | Survival.Side.left =>
         (SurvivalPvp.spawn_hazard g.bounds side (SurvivalPvp.difficulty g).speed r).1.right + 12 =
             g.bounds.left ∧
           (SurvivalPvp.spawn_hazard g.bounds side (SurvivalPvp.difficulty g).speed r).2 =
             ((SurvivalPvp.difficulty g).speed, 0)
       | Survival.Side.right =>
         g.bounds.right + 12 =
             (SurvivalPvp.spawn_hazard g.bounds side (SurvivalPvp.difficulty g).speed r).1.left ∧
           (SurvivalPvp.spawn_hazard g.bounds side (SurvivalPvp.difficulty g).speed r).2 =
             (-(SurvivalPvp.difficulty g).speed, 0)
       | Survival.Side.top =>
         (SurvivalPvp.spawn_hazard g.bounds side (SurvivalPvp.difficulty g).speed r).1.bottom + 12 =
             g.bounds.top ∧
           (SurvivalPvp.spawn_hazard g.bounds side (SurvivalPvp.difficulty g).speed r).2 =
             (0, (SurvivalPvp.difficulty g).speed)
       | Survival.Side.bottom =>
         g.bounds.bottom + 12 =
             (SurvivalPvp.spawn_hazard g.bounds side (SurvivalPvp.difficulty g).speed r).1.top ∧
           (SurvivalPvp.spawn_hazard g.bounds side (SurvivalPvp.difficulty g).speed r).2 =
             (0, -(SurvivalPvp.difficulty g).speed))) := by
  have hspeed : ∀ (base mx el : ℚ), base = 150 → mx = 380 → 0 ≤ el →
      0 < min mx (base + min (el / 45) 1 * (mx - base)) := by
    intro base mx el hb hm he
    subst hb
    subst hm
    have h1 : (0 : ℚ) ≤ min (el / 45) 1 := le_min (by positivity) (by norm_num)
    have h2 : (150 : ℚ) ≤ 150 + min (el / 45) 1 * (380 - 150) := by nlinarith
    exact lt_min (by norm_num) (by linarith)
  constructor
  · intro g side r hb hm he hw hh hlo hhi
    refine ⟨?_, ?_, ?_, ?_⟩
    · cases side <;> (unfold Survival.drawLo Survival.drawHi; dsimp only) <;> omega
    · exact hspeed g.base_speed g.max_speed g.elapsed hb hm he
    · cases side <;>
        (unfold Survival.spawn_hazard Rect.colliderect
         dsimp only
         simp only [Bool.and_eq_false_iff, decide_eq_false_iff_not, not_lt]
         omega)
    · cases side <;>
        (unfold Survival.spawn_hazard
         dsimp only [Rect.right, Rect.left, Rect.top, Rect.bottom]
         refine ⟨by omega, rfl⟩)
  · intro g side r hb hm he hw hh hlo hhi
    refine ⟨?_, ?_, ?_, ?_⟩
    · cases side <;> (unfold Survival.drawLo Survival.drawHi; dsimp only) <;> omega
    · exact hspeed g.base_speed g.max_speed g.elapsed hb hm he
    · cases side <;>
        (unfold SurvivalPvp.spawn_hazard Rect.colliderect
         dsimp only
         simp only [Bool.and_eq_false_iff, decide_eq_false_iff_not, not_lt]
         omega)
    · cases side <;>
        (unfold SurvivalPvp.spawn_hazard
         dsimp only [Rect.right, Rect.left, Rect.top, Rect.bottom]
         refine ⟨by omega, rfl⟩)

/-- Witness for **C10**: the fresh session `wsurv` (1000 x 1000
arena), left edge, placement draw 500. -/
theorem survival_spawn_outside_witness :
    (Survival.spawn_hazard wsurv.bounds Survival.Side.left
        (Survival.difficulty wsurv).speed 500).1.colliderect wsurv.bounds = false ∧
    0 < (Survival.difficulty wsurv).speed :=
  ⟨((survival_spawn_outside.1 wsurv Survival.Side.left 500 rfl rfl (by norm_num [wsurv])
      (by decide) (by decide) (by decide) (by decide)).2.2).1,
    (survival_spawn_outside.1 wsurv Survival.Side.left 500 rfl rfl (by norm_num [wsurv])
      (by decide) (by decide) (by decide) (by decide)).2.1⟩

namespace Tag

theorem movePlatform_fields (dt : ℚ) (pl : Platform) :
    (movePlatform dt pl).kind = pl.kind ∧
    (movePlatform dt pl).move_speed = pl.move_speed ∧
    (movePlatform dt pl).min_x = pl.min_x ∧
    (movePlatform dt pl).max_x = pl.max_x := by
  unfold movePlatform
  dsimp only
  split_ifs <;> simp

theorem movePlatform_bound (dt : ℚ) (pl : Platform)
    (hk : pl.kind = PlatKind.moving) (hs : 0 < pl.move_speed) :
    ((movePlatform dt pl).rect.right ≤ (movePlatform dt pl).max_x ∨
      (movePlatform dt pl).rect.left = (movePlatform dt pl).min_x) ∧
    ((movePlatform dt pl).min_x ≤ (movePlatform dt pl).rect.left ∨
      (movePlatform dt pl).rect.right = (movePlatform dt pl).max_x) := by
  unfold movePlatform
  dsimp only
  rw [if_pos (by rw [hk]; simp [hs] :
    (pl.kind == PlatKind.moving && decide (0 < pl.move_speed)) = true)]
  dsimp only
  split_ifs with h1 h2
  · simp [Rect.left, Rect.right, Rect.setLeft, Rect.addX]
  · simp only [Rect.left, Rect.right, Rect.setLeft, Rect.setRight, Rect.addX] at h1 h2 ⊢
    constructor
    · left
      omega
    · right
      omega
  · simp only [Rect.left, Rect.right, Rect.setLeft, Rect.setRight, Rect.addX] at h1 h2 ⊢
    constructor
    · left
      omega
    · left
      omega

theorem update_platform_bounds {g : TagGame} (ih : InputHandler)
    (pressed : Option (List Bool)) {dt : ℚ} (hov : g.is_over = false)
    (hrem : 0 < g.remaining - dt) :
    ∀ pl ∈ (update g ih pressed dt).platforms, pl.kind = PlatKind.moving →
      0 < pl.move_speed →
      ((pl.rect.right ≤ pl.max_x ∨ pl.rect.left = pl.min_x) ∧
        (pl.min_x ≤ pl.rect.left ∨ pl.rect.right = pl.max_x)) := by
  unfold update
  rw [if_neg (by rw [hov]; exact Bool.false_ne_true : ¬(g.is_over = true))]
  dsimp only
  rw [if_neg (not_le.mpr hrem)]
  dsimp only
  intro pl hpl hk hs
  obtain ⟨pl0, hpl0, rfl⟩ := List.mem_map.mp hpl
  have hf := movePlatform_fields dt pl0
  exact movePlatform_bound dt pl0 (hf.1.symm.trans hk) (hf.2.1 ▸ hs)

end Tag

/-- Counterexample for **C5** as stated: the platform generated by the
moving branch of `_generate_platforms` in a 1000-wide arena, at the
legal extreme draws width = 100 and x = 860 (both inside their
`random.randint` ranges), violates the patrol invariant immediately
after generation: `box.right = 960 > patrolMaxX = 860`, because
`max_patrol_x = bounds.right − margin − width` is an x (left-edge)
coordinate but is compared against `box.right`. -/
theorem tag_patrol_cex :
    ¬ Tag.patrolOk (Tag.generate_moving_platform ⟨0, 0, 1000, 600⟩ 300 860 100 100) ∧
    Tag.platformXMin ⟨0, 0, 1000, 600⟩ ≤ 860 ∧
    (860 : ℤ) ≤ Tag.platformXMax ⟨0, 0, 1000, 600⟩ 100 ∧
    Tag.platformWidthMin ⟨0, 0, 1000, 600⟩ ≤ 100 ∧
    (100 : ℤ) ≤ Tag.platformWidthMax ⟨0, 0, 1000, 600⟩ ∧
    (Tag.generate_moving_platform ⟨0, 0, 1000, 600⟩ 300 860 100 100).rect.right = 960 ∧
    (Tag.generate_moving_platform ⟨0, 0, 1000, 600⟩ 300 860 100 100).max_x = 860 := by
  decide

/-- **C5 (amended).** For Moving platforms, `patrolMinX ≤ box.left`
always holds immediately after generation, but `box.right ≤ patrolMaxX`
can fail there (see the counterexample: `patrolMaxX` is computed as a
left-edge limit `bounds.right − margin − width`). After the platform
step of every active, non-expiring `update` call, the crossed patrol
limit is clamped back exactly, so at least one bound always holds:
`box.right ≤ patrolMaxX` or `box.left = patrolMinX`, and
`patrolMinX ≤ box.left` or `box.right = patrolMaxX`. -/
theorem tag_patrol_amended :
    (∀ (bounds : Rect) (top x width : ℤ) (ms : ℚ),
      (Tag.generate_moving_platform bounds top x width ms).min_x ≤
        (Tag.generate_moving_platform bounds top x width ms).rect.left) ∧
    (∀ (dt : ℚ) (pl : Tag.Platform), pl.kind = Tag.PlatKind.moving →
      0 < pl.move_speed →
      (((Tag.movePlatform dt pl).rect.right ≤ (Tag.movePlatform dt pl).max_x ∨
          (Tag.movePlatform dt pl).rect.left = (Tag.movePlatform dt pl).min_x) ∧
        ((Tag.movePlatform dt pl).min_x ≤ (Tag.movePlatform dt pl).rect.left ∨
          (Tag.movePlatform dt pl).rect.right = (Tag.movePlatform dt pl).max_x))) ∧
    (∀ (g : Tag.TagGame) (ih : InputHandler) (pressed : Option (List Bool)) (dt : ℚ),
      g.is_over = false → 0 < g.remaining - dt →
      ∀ pl ∈ (Tag.update g ih pressed dt).platforms, pl.kind = Tag.PlatKind.moving →
        0 < pl.move_speed →
        ((pl.rect.right ≤ pl.max_x ∨ pl.rect.left = pl.min_x) ∧
          (pl.min_x ≤ pl.rect.left ∨ pl.rect.right = pl.max_x))) := by
  refine ⟨?_, ?_, ?_⟩
  · intro bounds top x width ms
    unfold Tag.generate_moving_platform
    dsimp only
    exact min_le_right _ _
  · intro dt pl hk hs
    exact Tag.movePlatform_bound dt pl hk hs
  · intro g ih pressed dt hov hrem
    exact Tag.update_platform_bounds ih pressed hov hrem

/-- Witness for **C5 (amended)**: the concrete moving platform `wplat`
(stepped with `dt = 1`) and one update of the session `wtagPlat`. -/
theorem tag_patrol_amended_witness :
    ((Tag.movePlatform 1 wplat).rect.right ≤ (Tag.movePlatform 1 wplat).max_x ∨
      (Tag.movePlatform 1 wplat).rect.left = (Tag.movePlatform 1 wplat).min_x) ∧
    ∀ pl ∈ (Tag.update wtagPlat ihEmpty none 1).platforms,
      pl.kind = Tag.PlatKind.moving → 0 < pl.move_speed →
      ((pl.rect.right ≤ pl.max_x ∨ pl.rect.left = pl.min_x) ∧
        (pl.min_x ≤ pl.rect.left ∨ pl.rect.right = pl.max_x)) :=
  ⟨(tag_patrol_amended.2.1 1 wplat (by decide) (by norm_num [wplat, Tag.generate_moving_platform])).1,
    tag_patrol_amended.2.2 wtagPlat ihEmpty none 1 (by decide) (by norm_num [wtagPlat, Tag.init])⟩

namespace Tag

theorem update_blocked {g : TagGame} (ih : InputHandler)
    (pressed : Option (List Bool)) {dt : ℚ} (hdt : 0 ≤ dt)
    (hcd : dt < g.tag_cooldown) :
    (update g ih pressed dt).current_it_id = g.current_it_id ∧
    (update g ih pressed dt).players.map (fun st => st.player.is_it) =
      g.players.map (fun st => st.player.is_it) ∧
    g.tag_cooldown - dt ≤ (update g ih pressed dt).tag_cooldown := by
  unfold update
  by_cases hov : g.is_over
  · rw [if_pos hov]
    exact ⟨rfl, rfl, by linarith⟩
  · rw [if_neg hov]
    dsimp only
    by_cases hrem : g.remaining - dt ≤ 0
    · rw [if_pos hrem]
      exact ⟨rfl, rfl, by linarith⟩
    · rw [if_neg hrem]
      have hcd0 : 0 < g.tag_cooldown := lt_of_le_of_lt hdt hcd
      have hcdv : (if 0 < g.tag_cooldown then max 0 (g.tag_cooldown - dt)
          else g.tag_cooldown) = g.tag_cooldown - dt := by
        rw [if_pos hcd0, max_eq_right (by linarith)]
      rw [hcdv]
      have hpos : 0 < g.tag_cooldown - dt := by linarith
      rw [transferPhase_cooldown_pos hpos]
      dsimp only
      refine ⟨rfl, ?_, le_refl _⟩
      exact idsItEq_map_isIt (idsItEq_trans (accruePhase_idsItEq _ _ _)
        (physStep_map_idsItEq g (g.platforms.map (movePlatform dt)) ih pressed dt g.players))

theorem runUpdates_blocked :
    ∀ (steps : List (InputHandler × Option (List Bool) × ℚ)) (g : TagGame),
    (∀ s ∈ steps, 0 ≤ s.2.2) → (steps.map (fun s => s.2.2)).sum < g.tag_cooldown →
    (runUpdates g steps).current_it_id = g.current_it_id ∧
    (runUpdates g steps).players.map (fun st => st.player.is_it) =
      g.players.map (fun st => st.player.is_it) := by
  intro steps
  induction steps with
  | nil => exact fun g _ _ => ⟨rfl, rfl⟩
  | cons s rest ihr =>
    intro g hdts hsum
    have hdt : 0 ≤ s.2.2 := hdts s (by simp)
    have hrest_nn : 0 ≤ (rest.map (fun s => s.2.2)).sum := by
      apply List.sum_nonneg
      intro x hx
      obtain ⟨s2, hs2, rfl⟩ := List.mem_map.mp hx
      exact hdts s2 (List.mem_cons_of_mem _ hs2)
    have hsum' : s.2.2 + (rest.map (fun s => s.2.2)).sum < g.tag_cooldown := by
      simpa using hsum
    have hstep := update_blocked s.1 s.2.1 hdt (by linarith : s.2.2 < g.tag_cooldown)
    have hnext : (rest.map (fun s => s.2.2)).sum < (update g s.1 s.2.1 s.2.2).tag_cooldown := by
      have hd := hstep.2.2
      linarith
    have hrec := ihr (update g s.1 s.2.1 s.2.2)
      (fun x hx => hdts x (List.mem_cons_of_mem _ hx)) hnext
    exact ⟨hrec.1.trans hstep.1, hrec.2.trans hstep.2.1⟩

end Tag

namespace Tag

theorem setAt2_getElem (players : List PState) (i0 j : ℕ) (hji : j ≠ i0) (m : ℕ) :
    (setAt (setAt players i0 clearIt) j setIt)[m]? =
      if j = m then (players[m]?).map setIt
      else if i0 = m then (players[m]?).map clearIt
      else players[m]? := by
  rw [getElem?_setAt, getElem?_setAt]
  by_cases hjm : j = m
  · rw [if_pos hjm, if_pos hjm, if_neg (fun he : i0 = m => hji (hjm.trans he.symm))]
  · rw [if_neg hjm, if_neg hjm]

theorem accruePhase_rect_id (l : List PState) (oi : Option ℕ) (dt : ℚ) (m : ℕ) :
    ((accruePhase l oi dt)[m]?).map (fun st => (st.player.player_id, st.player.rect)) =
      (l[m]?).map (fun st => (st.player.player_id, st.player.rect)) := by
  cases oi with
  | none => rfl
  | some k =>
    show ((setAt l k (addItTime dt))[m]?).map _ = _
    rw [getElem?_setAt]
    by_cases hkm : k = m
    · rw [if_pos hkm]
      cases l[m]? <;> rfl
    · rw [if_neg hkm]

theorem rect_id_transport {l1 l2 : List PState}
    (h : ∀ m : ℕ, (l1[m]?).map (fun st => (st.player.player_id, st.player.rect)) =
      (l2[m]?).map (fun st => (st.player.player_id, st.player.rect)))
    {m : ℕ} {st2 : PState} (h2 : l2[m]? = some st2) :
    ∃ st1, l1[m]? = some st1 ∧ st1.player.player_id = st2.player.player_id ∧
      st1.player.rect = st2.player.rect := by
  have hm := h m
  rw [h2] at hm
  cases h1 : l1[m]? with
  | none => rw [h1] at hm; simp at hm
  | some st1 =>
    rw [h1] at hm
    simp at hm
    exact ⟨st1, rfl, hm.1, hm.2⟩

theorem transferPhase_changed {players : List PState} {cur : ℤ} {cd dur : ℚ}
    (h : (transferPhase players cur cd dur).current_it_id ≠ cur) :
    (transferPhase players cur cd dur).tag_cooldown = dur ∧
    ∃ i0 j : ℕ, i0 ≠ j ∧ ∃ sti stj,
      (transferPhase players cur cd dur).players[i0]? = some sti ∧
      (transferPhase players cur cd dur).players[j]? = some stj ∧
      sti.player.player_id = cur ∧
      stj.player.player_id = (transferPhase players cur cd dur).current_it_id ∧
      sti.player.rect.colliderect stj.player.rect = true := by
  unfold transferPhase at h ⊢
  cases hfi : firstIdx (fun st => st.player.player_id == cur) players with
  | none =>
    rw [hfi] at h
    exact absurd rfl h
  | some i0 =>
    rw [hfi] at h
    dsimp only at h ⊢
    by_cases hcd : cd ≤ 0
    · rw [if_pos hcd] at h ⊢
      cases hft : findTagged (rectAt players i0) i0 players with
      | none =>
        rw [hft] at h
        exact absurd rfl h
      | some j =>
        rw [hft] at h
        dsimp only at h ⊢
        obtain ⟨hji0, stj, hstj, hcol⟩ := findTagged_spec hft
        obtain ⟨st0, hst0, hst0id⟩ := firstIdx_id_spec hfi
        have hrect0 : rectAt players i0 = st0.player.rect := by
          unfold rectAt
          rw [hst0]
        refine ⟨rfl, i0, j, fun he => hji0 he.symm, clearIt st0, setIt stj, ?_, ?_, hst0id, ?_, ?_⟩
        · rw [setAt2_getElem players i0 j hji0 i0,
            if_neg (fun he : j = i0 => hji0 he), if_pos rfl, hst0]
          rfl
        · rw [setAt2_getElem players i0 j hji0 j, if_pos rfl, hstj]
          rfl
        · show stj.player.player_id = idAt players j
          unfold idAt
          rw [hstj]
        · show st0.player.rect.colliderect stj.player.rect = true
          rw [← hrect0]
          exact hcol
    · rw [if_neg hcd] at h
      exact absurd rfl h

theorem update_single_hop {g : TagGame} (ih : InputHandler)
    (pressed : Option (List Bool)) {dt : ℚ}
    (hch : (update g ih pressed dt).current_it_id ≠ g.current_it_id) :
    (update g ih pressed dt).tag_cooldown = g.tag_cooldown_duration ∧
    ∃ i0 j : ℕ, i0 ≠ j ∧ ∃ sti stj,
      (update g ih pressed dt).players[i0]? = some sti ∧
      (update g ih pressed dt).players[j]? = some stj ∧
      sti.player.player_id = g.current_it_id ∧
      stj.player.player_id = (update g ih pressed dt).current_it_id ∧
      sti.player.rect.colliderect stj.player.rect = true := by
  unfold update at hch ⊢
  by_cases hov : g.is_over
  · rw [if_pos hov] at hch
    exact absurd rfl hch
  · rw [if_neg hov] at hch ⊢
    dsimp only at hch ⊢
    by_cases hrem : g.remaining - dt ≤ 0
    · rw [if_pos hrem] at hch
      exact absurd rfl hch
    · rw [if_neg hrem] at hch ⊢
      dsimp only at hch ⊢
      obtain ⟨hcdset, i0, j, hij, sti, stj, hsti, hstj, hstiid, hstjid, hcol⟩ :=
        transferPhase_changed hch
      obtain ⟨sti2, hsti2, hid2, hrect2⟩ := rect_id_transport
        (accruePhase_rect_id _ _ dt) hsti
      obtain ⟨stj2, hstj2, hidj2, hrectj2⟩ := rect_id_transport
        (accruePhase_rect_id _ _ dt) hstj
      refine ⟨hcdset, i0, j, hij, sti2, stj2, hsti2, hstj2,
        hid2.trans hstiid, hidj2.trans hstjid, ?_⟩
      rw [hrect2, hrectj2]
      exact hcol

end Tag

/-- A concrete transfer: in the fresh match `wtagOverlap` (player 1 IT,
cooldown 0, boxes of players 1 and 2 overlapping), one update hands IT
to player 2. -/
theorem wtagOverlap_hop :
    (Tag.update wtagOverlap ihEmpty none (1/100)).current_it_id = 2 ∧
    wtagOverlap.current_it_id = 1 := by
  constructor
  · norm_num [Tag.update, Tag.transferPhase, Tag.accruePhase, Tag.physStep,
      Tag.movePlatform, Tag.bufferAndRide, Tag.verticalPhase, Tag.verticalCore,
      Tag.landOnPlatform, Tag.horizontalPhase, Tag.applyGravity, Tag.consumeJump,
      Tag.jumpInput, Tag.dropCond, Tag.initPhys, Tag.init, Tag.clearIt, Tag.setIt,
      Tag.addItTime, Tag.rectAt, Tag.idAt, Tag.findTagged, firstIdx, setAt,
      dictGet, pyTrunc, pyFloorDiv, pyListGet, Rect.colliderect, Rect.contains,
      Rect.setBottom, Rect.setTop, Rect.setLeft, Rect.setRight, Rect.addX,
      Rect.addY, Rect.inflate, Rect.left, Rect.right, Rect.top, Rect.bottom,
      Rect.centerx, Player.move, Player.clamp_to_bounds, Player.human_update,
      InputHandler.get_direction, InputHandler.get_axes,
      InputHandler.is_action_pressed, InputHandler.diagFactor,
      wtagOverlap, wp1, wp3, wbounds, ihEmpty, actUp, actDown, actLeft, actRight]
  · norm_num [wtagOverlap, Tag.init]

/-- **C2.** Tag-transfer cooldown. (1) While the accumulated `dt` of a
run of update calls stays strictly below the current `tag_cooldown`,
no transfer occurs: `current_it_id` and every player's `is_it` flag
are unchanged — in particular, right after a transfer the cooldown
holds `tag_cooldown_duration`, so no further transfer occurs until
that much `dt` has accumulated, regardless of overlap. (2) At most
one transfer is processed per update call: whenever an update changes
`current_it_id`, the cooldown is set to `tag_cooldown_duration` and
the change is a single hop — the roster holds the old IT holder and
the new one at distinct indices with colliding boxes. (3) The
constructor fixes `tag_cooldown_duration = 8/10` (0.8 s). -/
theorem tag_transfer_cooldown :
    (∀ (g : Tag.TagGame) (steps : List (InputHandler × Option (List Bool) × ℚ)),
        (∀ s ∈ steps, 0 ≤ s.2.2) →
        (steps.map (fun s => s.2.2)).sum < g.tag_cooldown →
        (Tag.runUpdates g steps).current_it_id = g.current_it_id ∧
        (Tag.runUpdates g steps).players.map (fun st => st.player.is_it) =
          g.players.map (fun st => st.player.is_it)) ∧
    (∀ (g : Tag.TagGame) (ih : InputHandler) (pressed : Option (List Bool)) (dt : ℚ),
        (Tag.update g ih pressed dt).current_it_id ≠ g.current_it_id →
        (Tag.update g ih pressed dt).tag_cooldown = g.tag_cooldown_duration ∧
        ∃ i0 j : ℕ, i0 ≠ j ∧ ∃ sti stj : Tag.PState,
          (Tag.update g ih pressed dt).players[i0]? = some sti ∧
          (Tag.update g ih pressed dt).players[j]? = some stj ∧
          sti.player.player_id = g.current_it_id ∧
          stj.player.player_id = (Tag.update g ih pressed dt).current_it_id ∧
          sti.player.rect.colliderect stj.player.rect = true) ∧
    (∀ (roster : List Player) (bounds : Rect) (mt : ℚ) (mi : ℤ) (dj mv dr sp : Bool)
        (chosen : ℤ) (plats : List Tag.Platform),
        (Tag.init roster bounds mt mi dj mv dr sp chosen plats).tag_cooldown_duration
          = 8/10) :=
  ⟨fun g steps h1 h2 => Tag.runUpdates_blocked steps g h1 h2,
   fun _ ih pressed _ h => Tag.update_single_hop ih pressed h,
   fun _ _ _ _ _ _ _ _ _ _ => rfl⟩

/-- Witness for **C2**: two blocked frames (total 0.6 s < 0.8 s
cooldown) on `wtagCd` leave IT with player 1; the concrete transfer in
`wtagOverlap` starts the full cooldown; and the constructed duration
is 0.8 s. -/
theorem tag_transfer_cooldown_witness :
    (Tag.runUpdates wtagCd [(ihEmpty, none, 1/10), (ihEmpty, none, 1/2)]).current_it_id
        = wtagCd.current_it_id ∧
    (Tag.update wtagOverlap ihEmpty none (1/100)).tag_cooldown
        = wtagOverlap.tag_cooldown_duration ∧
    (Tag.init [wp1, wp2] wbounds 60 0 false false false false 1 []).tag_cooldown_duration
        = 8/10 := by
  refine ⟨?_, ?_, ?_⟩
  · exact (tag_transfer_cooldown.1 wtagCd [(ihEmpty, none, 1/10), (ihEmpty, none, 1/2)]
      (by intro s hs
          simp only [List.mem_cons, List.not_mem_nil, or_false] at hs
          rcases hs with rfl | rfl <;> norm_num)
      (by norm_num [wtagCd])).1
  · exact (tag_transfer_cooldown.2.1 wtagOverlap ihEmpty none (1/100)
      (by rw [wtagOverlap_hop.1, wtagOverlap_hop.2]; decide)).1
  · exact tag_transfer_cooldown.2.2 [wp1, wp2] wbounds 60 0 false false false false 1 []

namespace Tag

theorem map_itt_add {o1 o2 : Option PState} (dt : ℚ)
    (h : o1.map (fun st => st.player.it_time) = o2.map (fun st => st.player.it_time)) :
    o1.map (fun st => st.player.it_time + dt) =
      o2.map (fun st => st.player.it_time + dt) := by
  cases o1 <;> cases o2 <;> simp_all

theorem sum_bump : ∀ (l1 l2 : List ℚ) (k : ℕ) (dt : ℚ),
    (∀ m : ℕ, l2[m]? = if k = m then (l1[m]?).map (fun x => x + dt) else l1[m]?) →
    k < l1.length → l2.sum = l1.sum + dt := by
  intro l1
  induction l1 with
  | nil =>
    intro l2 k dt h hk
    exact absurd hk (by simp)
  | cons a t1 ihr =>
    intro l2 k dt h hk
    cases l2 with
    | nil =>
      have h0 := h 0
      split at h0 <;> simp_all
    | cons b t2 =>
      cases k with
      | zero =>
        have h0 := h 0
        rw [if_pos rfl] at h0
        simp only [List.getElem?_cons_zero, Option.map_some'] at h0
        have hb : b = a + dt := by simpa using h0
        have ht : t2 = t1 := by
          apply List.ext_getElem?
          intro m
          have hm := h (m + 1)
          rw [if_neg (by omega)] at hm
          simpa using hm
        subst hb
        subst ht
        simp [List.sum_cons]
        ring
      | succ q =>
        have h0 := h 0
        rw [if_neg (by omega)] at h0
        have hb : b = a := by simpa using h0
        have ht : t2.sum = t1.sum + dt := by
          apply ihr t2 q dt
          · intro m
            have hm := h (m + 1)
            by_cases hqm : q = m
            · rw [if_pos (by omega)] at hm
              rw [if_pos hqm]
              simpa using hm
            · rw [if_neg (by omega)] at hm
              rw [if_neg hqm]
              simpa using hm
          · simpa using hk
        subst hb
        simp [List.sum_cons, ht]
        ring

end Tag

namespace Tag

theorem update_it_time {g : TagGame} (ih : InputHandler)
    (pressed : Option (List Bool)) (dt : ℚ) (hinv : tagInv g)
    (hov : g.is_over = false) (hrem : 0 < g.remaining - dt) :
    ∃ k : ℕ, k < g.players.length ∧
      (∃ st, (update g ih pressed dt).players[k]? = some st ∧
        st.player.player_id = (update g ih pressed dt).current_it_id) ∧
      ∀ m : ℕ,
        ((update g ih pressed dt).players[m]?).map (fun st => st.player.it_time) =
          if k = m then (g.players[m]?).map (fun st => st.player.it_time + dt)
          else (g.players[m]?).map (fun st => st.player.it_time) := by
  unfold update
  rw [if_neg (by simp [hov])]
  dsimp only
  rw [if_neg (not_le.mpr hrem)]
  dsimp only
  have hitt1 : ∀ m : ℕ,
      ((g.players.map (physStep g (g.platforms.map (movePlatform dt)) ih pressed dt))[m]?).map
          (fun st => st.player.it_time) =
        (g.players[m]?).map (fun st => st.player.it_time) := by
    intro m
    rw [List.getElem?_map]
    cases g.players[m]? with
    | none => rfl
    | some st =>
      simp only [Option.map_some']
      exact congrArg some
        (physStep_metaEq g (g.platforms.map (movePlatform dt)) ih pressed dt st).2.2
  have hinv1 : tagInvP
      (g.players.map (physStep g (g.platforms.map (movePlatform dt)) ih pressed dt))
      g.current_it_id :=
    tagInvP_of_idsItEq
      (physStep_map_idsItEq g (g.platforms.map (movePlatform dt)) ih pressed dt g.players)
      ((tagInv_eq_P g).mp hinv)
  obtain ⟨-, hlenT, hittT, k, hkidx, hklt, st, hstk, hstid⟩ := @transferPhase_char _ _
    (if 0 < g.tag_cooldown then max 0 (g.tag_cooldown - dt) else g.tag_cooldown)
    g.tag_cooldown_duration hinv1
  rw [hkidx]
  simp only [accruePhase]
  refine ⟨k, by simpa using hklt, ⟨addItTime dt st, ?_, hstid⟩, ?_⟩
  · rw [getElem?_setAt, if_pos rfl, hstk]
    rfl
  · intro m
    rw [getElem?_setAt]
    by_cases hkm : k = m
    · rw [if_pos hkm, if_pos hkm]
      have h1 := (hittT m).trans (hitt1 m)
      have h2 : (((transferPhase
            (g.players.map (physStep g (g.platforms.map (movePlatform dt)) ih pressed dt))
            g.current_it_id
            (if 0 < g.tag_cooldown then max 0 (g.tag_cooldown - dt) else g.tag_cooldown)
            g.tag_cooldown_duration).players[m]?).map (addItTime dt)).map
          (fun st => st.player.it_time) =
        ((transferPhase
            (g.players.map (physStep g (g.platforms.map (movePlatform dt)) ih pressed dt))
            g.current_it_id
            (if 0 < g.tag_cooldown then max 0 (g.tag_cooldown - dt) else g.tag_cooldown)
            g.tag_cooldown_duration).players[m]?).map
          (fun st => st.player.it_time + dt) := by
        cases (transferPhase
            (g.players.map (physStep g (g.platforms.map (movePlatform dt)) ih pressed dt))
            g.current_it_id
            (if 0 < g.tag_cooldown then max 0 (g.tag_cooldown - dt) else g.tag_cooldown)
            g.tag_cooldown_duration).players[m]? <;> rfl
      rw [h2]
      exact map_itt_add dt h1
    · rw [if_neg hkm, if_neg hkm]
      exact (hittT m).trans (hitt1 m)

end Tag

namespace Tag

theorem update_itSum {g : TagGame} (ih : InputHandler)
    (pressed : Option (List Bool)) (dt : ℚ) (hinv : tagInv g) :
    itSum (update g ih pressed dt) =
      itSum g + (if g.is_over = false ∧ 0 < g.remaining - dt then dt else 0) := by
  by_cases hov : g.is_over = true
  · have hupd : update g ih pressed dt = g := by
      unfold update
      rw [if_pos hov]
    rw [hupd, if_neg (by simp [hov])]
    ring
  · have hovf : g.is_over = false := by simpa using hov
    by_cases hrem : 0 < g.remaining - dt
    · rw [if_pos ⟨hovf, hrem⟩]
      obtain ⟨k, hk, -, hmap⟩ := update_it_time ih pressed dt hinv hovf hrem
      show ((update g ih pressed dt).players.map (fun st => st.player.it_time)).sum =
        (g.players.map (fun st => st.player.it_time)).sum + dt
      apply sum_bump
      · intro m
        rw [List.getElem?_map, List.getElem?_map]
        have hm := hmap m
        by_cases hkm : k = m
        · rw [if_pos hkm] at hm ⊢
          rw [hm]
          cases g.players[m]? <;> rfl
        · rw [if_neg hkm] at hm ⊢
          exact hm
      · simpa using hk
    · rw [if_neg (fun hc => hrem hc.2)]
      have hpl : (update g ih pressed dt).players = g.players := by
        unfold update
        rw [if_neg (by simp [hovf])]
        dsimp only
        rw [if_pos (not_lt.mp hrem)]
      unfold itSum
      rw [hpl]
      ring

theorem runUpdates_itSum :
    ∀ (steps : List (InputHandler × Option (List Bool) × ℚ)) (g : TagGame),
    tagInv g → itSum (runUpdates g steps) = itSum g + creditedTime g steps := by
  intro steps
  induction steps with
  | nil =>
    intro g _
    show itSum g = itSum g + creditedTime g []
    rw [creditedTime]
    ring
  | cons s rest ihr =>
    intro g hinv
    have hrw : runUpdates g (s :: rest) = runUpdates (update g s.1 s.2.1 s.2.2) rest := rfl
    have hinv2 : tagInv (update g s.1 s.2.1 s.2.2) := update_inv s.1 s.2.1 s.2.2 hinv
    rw [hrw, ihr _ hinv2, update_itSum s.1 s.2.1 s.2.2 hinv]
    show _ = itSum g + creditedTime g (s :: rest)
    rw [creditedTime]
    ring

end Tag

/-- Counterexample to **C3** as stated: `wtag1` is an active 1-second
match (`is_over = false`) and the update is called with `dt = 1 ≠ 0`,
yet no player's `it_time` changes — the frame that expires the timer
(`remaining - dt ≤ 0`) returns before any IT time is accrued, so on
that frame no player's `it_time` increases by `dt` and the match-total
IT time falls `dt` short of the elapsed match time. -/
theorem tag_it_time_cex :
    wtag1.is_over = false ∧ (1 : ℚ) ≠ 0 ∧
    (Tag.update wtag1 ihEmpty none 1).players.map (fun st => st.player.it_time) =
      wtag1.players.map (fun st => st.player.it_time) := by
  have hov : wtag1.is_over = false := by decide
  have hpl : (Tag.update wtag1 ihEmpty none 1).players = wtag1.players := by
    unfold Tag.update
    rw [if_neg (by simp [hov])]
    dsimp only
    rw [if_pos (by norm_num [wtag1, Tag.init] : wtag1.remaining - (1 : ℚ) ≤ 0)]
  exact ⟨hov, by norm_num, by rw [hpl]⟩

/-- **C3** (amended). IT-time conservation holds on every frame except
the expiring one. (1) On every update of an active match that does not
expire the timer (`is_over = false` and `0 < remaining - dt`), exactly
one player's `it_time` increases, by exactly `dt` — the player at the
accrual index, whose id is the post-update `current_it_id` (the IT
holder after any transfer this frame) — and every other player's
`it_time` is unchanged. (2) Hence per frame the roster-total IT time
grows by `dt` on active non-expiring frames and by `0` on finished or
expiring frames. (3) Over a whole run, the total IT time grows by
exactly `creditedTime`: the sum of `dt` over the active non-expiring
frames, i.e. total elapsed match time minus the expiring frame's
`dt`. -/
theorem tag_it_time_amended :
    (∀ (g : Tag.TagGame) (ih : InputHandler) (pressed : Option (List Bool)) (dt : ℚ),
        Tag.tagInv g → g.is_over = false → 0 < g.remaining - dt →
        ∃ k : ℕ, k < g.players.length ∧
          (∃ st, (Tag.update g ih pressed dt).players[k]? = some st ∧
            st.player.player_id = (Tag.update g ih pressed dt).current_it_id) ∧
          ∀ m : ℕ,
            ((Tag.update g ih pressed dt).players[m]?).map (fun st => st.player.it_time) =
              if k = m then (g.players[m]?).map (fun st => st.player.it_time + dt)
              else (g.players[m]?).map (fun st => st.player.it_time)) ∧
    (∀ (g : Tag.TagGame) (ih : InputHandler) (pressed : Option (List Bool)) (dt : ℚ),
        Tag.tagInv g →
        Tag.itSum (Tag.update g ih pressed dt) =
          Tag.itSum g + (if g.is_over = false ∧ 0 < g.remaining - dt then dt else 0)) ∧
    (∀ (g : Tag.TagGame) (steps : List (InputHandler × Option (List Bool) × ℚ)),
        Tag.tagInv g →
        Tag.itSum (Tag.runUpdates g steps) = Tag.itSum g + Tag.creditedTime g steps) :=
  ⟨fun _ ih pressed dt hinv hov hrem => Tag.update_it_time ih pressed dt hinv hov hrem,
   fun _ ih pressed dt hinv => Tag.update_itSum ih pressed dt hinv,
   fun g steps hinv => Tag.runUpdates_itSum steps g hinv⟩

/-- Witness for **C3** (amended) on the concrete match `wtag60` with
`dt = 1`: the per-frame accrual, the per-frame total growth and the
run-total identity, with every hypothesis discharged concretely. -/
theorem tag_it_time_amended_witness :
    (∃ k : ℕ, k < wtag60.players.length ∧
      (∃ st, (Tag.update wtag60 ihEmpty none 1).players[k]? = some st ∧
        st.player.player_id = (Tag.update wtag60 ihEmpty none 1).current_it_id) ∧
      ∀ m : ℕ,
        ((Tag.update wtag60 ihEmpty none 1).players[m]?).map (fun st => st.player.it_time) =
          if k = m then (wtag60.players[m]?).map (fun st => st.player.it_time + 1)
          else (wtag60.players[m]?).map (fun st => st.player.it_time)) ∧
    Tag.itSum (Tag.update wtag60 ihEmpty none 1) =
      Tag.itSum wtag60 + (if wtag60.is_over = false ∧ 0 < wtag60.remaining - 1 then 1 else 0) ∧
    Tag.itSum (Tag.runUpdates wtag60 [(ihEmpty, none, 1)]) =
      Tag.itSum wtag60 + Tag.creditedTime wtag60 [(ihEmpty, none, 1)] := by
  have hinv : Tag.tagInv wtag60 := by decide
  refine ⟨?_, ?_, ?_⟩
  · exact tag_it_time_amended.1 wtag60 ihEmpty none 1 hinv (by decide)
      (by norm_num [wtag60, Tag.init])
  · exact tag_it_time_amended.2.1 wtag60 ihEmpty none 1 hinv
  · exact tag_it_time_amended.2.2 wtag60 [(ihEmpty, none, 1)] hinv

namespace Tag

theorem dropCond_velx (platforms : List Platform) (jump down : Bool) (st : PState)
    (v : ℚ) :
    dropCond platforms { st with phys := { st.phys with vel_x := v } } jump down =
      dropCond platforms st jump down := rfl

end Tag

/-- Counterexample to **C4** as stated: in `wtagAir` the single player
is airborne (`grounded = false`) with one jump left; one update with
the jump key newly held consumes the buffer in mid-air — the jump
budget drops to 0 and the upward impulse is applied (vel_y becomes
`-700 + 1400·dt = -686`) — while the player is airborne both before
and after the frame, because lines 296-301 gate consumption only on
`jumps_left > 0`, never on being grounded. -/
theorem wihUp_axes : wihUp.get_axes 1 none = (0, -1) := by decide

theorem wihUp_up : wihUp.is_action_pressed 1 "up" none = true := by decide

theorem wihUp_down : wihUp.is_action_pressed 1 "down" none = false := by decide

theorem tag_jump_buffer_cex :
    wtagAir.players.map (fun st => st.phys.grounded) = [false] ∧
    wtagAir.players.map (fun st => st.phys.jumps_left) = [1] ∧
    (Tag.update wtagAir wihUp none (1/100)).players.map (fun st => st.phys.grounded)
        = [false] ∧
    (Tag.update wtagAir wihUp none (1/100)).players.map (fun st => st.phys.jumps_left)
        = [0] ∧
    (Tag.update wtagAir wihUp none (1/100)).players.map (fun st => st.phys.vel_y)
        = [-686] := by
  refine ⟨by decide, by decide, ?_⟩
  have : (Tag.update wtagAir wihUp none (1/100)).players.map (fun st => st.phys.grounded)
        = [false] ∧
      (Tag.update wtagAir wihUp none (1/100)).players.map (fun st => st.phys.jumps_left)
        = [0] ∧
      (Tag.update wtagAir wihUp none (1/100)).players.map (fun st => st.phys.vel_y)
        = [-686] := by
    norm_num [Tag.update, Tag.transferPhase, Tag.accruePhase, Tag.physStep,
      Tag.movePlatform, Tag.bufferAndRide, Tag.verticalPhase, Tag.verticalCore,
      Tag.landOnPlatform, Tag.horizontalPhase, Tag.applyGravity, Tag.consumeJump,
      Tag.jumpInput, Tag.dropCond, Tag.initPhys, Tag.init, Tag.clearIt, Tag.setIt,
      Tag.addItTime, Tag.rectAt, Tag.idAt, Tag.findTagged, firstIdx, setAt,
      dictGet, pyTrunc, pyFloorDiv, pyListGet, Rect.colliderect, Rect.contains,
      Rect.setBottom, Rect.setTop, Rect.setLeft, Rect.setRight, Rect.addX,
      Rect.addY, Rect.inflate, Rect.left, Rect.right, Rect.top, Rect.bottom,
      Rect.centerx, Player.move, Player.clamp_to_bounds, Player.human_update,
      wihUp_axes, wihUp_up, wihUp_down,
      wtagAir, wp1, wbounds, actUp, actDown, actLeft, actRight]
  exact this

/-- **C4** (amended). (1) Jump arming is edge-triggered: when the
drop-through branch is not taken, a press with `last_jump_pressed =
false` arms the 0.18 s buffer and records the press; (2) with no fresh
edge the buffer is left alone by the input step; (3) the buffer is
consumed — the impulse `-jump_speed` is applied, the jump budget is
decremented and the buffer cleared — exactly when `jump_buffer > 0`
and `jumps_left > 0`, with NO grounded requirement: a buffered press
also fires while airborne if jumps remain. A press made while
airborne with an exhausted budget is consumed on the first frame after
landing refills the budget, with no fresh press, since consumption
reads only the buffer and the budget; (4) when the condition fails
the consume step is the identity. -/
theorem tag_jump_buffer_amended :
    (∀ (platforms : List Tag.Platform) (ms : ℚ) (dx : ℤ) (down : Bool)
        (st : Tag.PState),
        Tag.dropCond platforms st true down = false →
        st.phys.last_jump_pressed = false →
        (Tag.jumpInput platforms ms dx true down st).phys.jump_buffer = 18/100 ∧
        (Tag.jumpInput platforms ms dx true down st).phys.last_jump_pressed = true) ∧
    (∀ (platforms : List Tag.Platform) (ms : ℚ) (dx : ℤ) (jump down : Bool)
        (st : Tag.PState),
        Tag.dropCond platforms st jump down = false →
        (jump && !st.phys.last_jump_pressed) = false →
        (Tag.jumpInput platforms ms dx jump down st).phys.jump_buffer =
          st.phys.jump_buffer) ∧
    (∀ (js : ℚ) (st : Tag.PState),
        0 < st.phys.jump_buffer → 0 < st.phys.jumps_left →
        (Tag.consumeJump js st).phys.vel_y = -js ∧
        (Tag.consumeJump js st).phys.jumps_left = st.phys.jumps_left - 1 ∧
        (Tag.consumeJump js st).phys.jump_buffer = 0 ∧
        (Tag.consumeJump js st).phys.grounded = false) ∧
    (∀ (js : ℚ) (st : Tag.PState),
        ¬(0 < st.phys.jump_buffer ∧ 0 < st.phys.jumps_left) →
        Tag.consumeJump js st = st) := by
  refine ⟨?_, ?_, ?_, ?_⟩
  · intro platforms ms dx down st hdc hlast
    unfold Tag.jumpInput
    dsimp only
    rw [if_neg (by rw [Tag.dropCond_velx, hdc]; exact Bool.false_ne_true),
      if_pos (by rw [hlast]; rfl)]
    exact ⟨rfl, rfl⟩
  · intro platforms ms dx jump down st hdc hedge
    unfold Tag.jumpInput
    dsimp only
    rw [if_neg (by rw [Tag.dropCond_velx, hdc]; exact Bool.false_ne_true),
      if_neg (by rw [hedge]; exact Bool.false_ne_true)]
  · intro js st h1 h2
    unfold Tag.consumeJump
    rw [if_pos ⟨h1, h2⟩]
    exact ⟨rfl, rfl, rfl, rfl⟩
  · intro js st h
    unfold Tag.consumeJump
    rw [if_neg h]

/-- Witness for **C4** (amended): arming on the fresh-press airborne
state `wtagAir`'s player, the no-edge case with the key already held,
mid-air consumption with an armed buffer and one jump left, and the
identity when the buffer is empty. -/
theorem tag_jump_buffer_amended_witness :
    (Tag.jumpInput [] 260 0 true false ⟨wp1, Tag.initPhys 1⟩).phys.jump_buffer
        = 18/100 ∧
    (Tag.jumpInput [] 260 0 true false
        ⟨wp1, { Tag.initPhys 1 with last_jump_pressed := true }⟩).phys.jump_buffer
      = ({ Tag.initPhys 1 with last_jump_pressed := true } : Tag.PPhys).jump_buffer ∧
    (Tag.consumeJump 700 ⟨wp1, { Tag.initPhys 1 with jump_buffer := 18/100 }⟩).phys.jumps_left
      = 0 ∧
    Tag.consumeJump 700 ⟨wp1, Tag.initPhys 1⟩ = ⟨wp1, Tag.initPhys 1⟩ := by
  refine ⟨?_, ?_, ?_, ?_⟩
  · exact (tag_jump_buffer_amended.1 [] 260 0 false ⟨wp1, Tag.initPhys 1⟩
      (by decide) (by decide)).1
  · exact tag_jump_buffer_amended.2.1 [] 260 0 true false
      ⟨wp1, { Tag.initPhys 1 with last_jump_pressed := true }⟩ (by decide) (by decide)
  · have h := (tag_jump_buffer_amended.2.2.1 700
      ⟨wp1, { Tag.initPhys 1 with jump_buffer := 18/100 }⟩
      (by norm_num [Tag.initPhys]) (by decide)).2.1
    rw [h]
    decide
  · exact tag_jump_buffer_amended.2.2.2 700 ⟨wp1, Tag.initPhys 1⟩
      (by rw [not_and]; intro hb; norm_num [Tag.initPhys] at hb)
